import Mathlib

/-!
Simulcast layer selection (`SimulcastMediaFrameListener`) and media frame payload.

A shallow embedding of `src/src/SimulcastMediaFrameListener.cpp`, and of the
payload operations of `MediaFrame` in `src/include/media.h`.

* Machine integers are natural numbers; every C++ operation that can wrap is
  written with an explicit modulus (`uint64_t` for the selector's timestamps,
  times and offset, `DWORD` for the pixel area and for the timestamp that
  `SetTimestamp` stores in a frame).
* `std::unordered_map<DWORD, unique_ptr<VideoFrame>> iframes` is an association
  list with `try_emplace` semantics.  Its iteration order is unspecified in
  C++, so every operation that iterates over it takes an `IterOrder`, the
  order in which the map hands out its entries.
* `std::vector<pair<DWORD, unique_ptr<VideoFrame>>> pendingFrames` is a list
  in arrival order.
* The listeners are identified by natural numbers; a call of
  `listener->onMediaFrame(ssrc, frame)` is recorded as a `SinkCall`.  Every
  operation returns its trace: one `Forwarding` per call of `ForwardFrame`,
  in order, with the listener calls that it made.
* The buffers behind `std::shared_ptr<Buffer>` live in a heap, a list indexed
  by pointer; `Buffer.h` is not among the sources, so the methods of `Buffer`
  are parameters of the frame operations.
-/

namespace Simulcast

/-- Time that the selector waits for the intra frames of all the layers (`FrameWaitingTime`). -/
def FrameWaitingTime : Nat := 300

/-- Addition of two `uint64_t` values. -/
def add64 (a b : Nat) : Nat := (a + b) % 2 ^ 64

/-- Subtraction of two `uint64_t` values, wrapping around below zero. -/
def sub64 (a b : Nat) : Nat := (a % 2 ^ 64 + (2 ^ 64 - b % 2 ^ 64)) % 2 ^ 64

/-- Multiplication of two `uint64_t` values. -/
def mul64 (a b : Nat) : Nat := (a * b) % 2 ^ 64

/-- Multiplication of two `DWORD` values. -/
def mul32 (a b : Nat) : Nat := (a * b) % 2 ^ 32

/-- The media kinds of `MediaFrame::Type`. -/
inductive MediaType where
  | Audio
  | Video
  | Text
  | Unknown
  deriving DecidableEq, Repr

/-- The part of a frame that the selector reads: `GetType`, `GetTimestamp`
(also spelled `GetTimeStamp`), `GetTime`, `GetClockRate`, `GetLength`,
`GetWidth`, `GetHeight` and `IsIntra`.  `VideoFrame` is declared in a header
that is not among the sources.  The timestamp is the `DWORD ts` field of
`MediaFrame` (`include/media.h`), which the listener reads into a `uint64_t`
local and writes back through `SetTimestamp(DWORD)`; the capture time, which
`media.h` does not declare, is taken with the width of the `uint64_t` local
that the listener reads it into, sizes and dimensions with that of its `DWORD`
locals. -/
structure VideoFrame where
  type : MediaType
  ts : Nat
  time : Nat
  clockRate : Nat
  length : Nat
  width : Nat
  height : Nat
  intra : Bool
  deriving DecidableEq, Repr

/-- One call `listener->onMediaFrame(ssrc, frame)` made by `ForwardFrame`. -/
structure SinkCall where
  listener : Nat
  ssrc : Nat
  frame : VideoFrame
  deriving DecidableEq, Repr

/-- The members of `SimulcastMediaFrameListener`. -/
structure Selector where
  ssrc : Nat
  numLayers : Nat
  listeners : List Nat
  forwarded : Nat
  firstTimestamp : Nat
  offsetTimestamp : Nat
  lastTimestamp : Nat
  lastTime : Nat
  selectionTime : Nat
  iframes : List (Nat × VideoFrame)
  pendingFrames : List (Nat × VideoFrame)
  deriving DecidableEq, Repr

/-- The order in which a range-for over `iframes` visits the entries of the map. -/
abbrev IterOrder := List (Nat × VideoFrame) → List (Nat × VideoFrame)

/-- An iteration order visits every entry of the map exactly once. -/
def ValidOrder (ord : IterOrder) : Prop := ∀ l, (ord l).Perm l

/-- Modelled from the spec: the initial values of the members, which are set in
the class declaration (`SimulcastMediaFrameListener.h`, not among the sources).
The constructor stores `ssrc` and `numLayers`; the forwarded layer starts at the
value `noLayer` that stands for none, the continuity bookkeeping starts at zero,
no round is active and both buffers are empty. -/
def initial (ssrc numLayers noLayer : Nat) : Selector :=
  { ssrc := ssrc
    numLayers := numLayers
    listeners := []
    forwarded := noLayer
    firstTimestamp := 0
    offsetTimestamp := 0
    lastTimestamp := 0
    lastTime := 0
    selectionTime := 0
    iframes := []
    pendingFrames := [] }

/-- `AddMediaListener`: `listeners.insert(listener)` on a `std::set`, which
keeps one copy of each listener and iterates in increasing order. -/
def AddMediaListener (s : Selector) (listener : Nat) : Selector :=
  if listener ∈ s.listeners then s
  else { s with listeners := s.listeners.orderedInsert (fun a b => a ≤ b) listener }

/-- `RemoveMediaListener`: `listeners.erase(listener)`. -/
def RemoveMediaListener (s : Selector) (listener : Nat) : Selector :=
  { s with listeners := s.listeners.filter (fun l => l != listener) }

/-- `SetNumLayers`. -/
def SetNumLayers (s : Selector) (numLayers : Nat) : Selector :=
  { s with numLayers := numLayers }

/-- `MediaFrame::SetTimestamp(DWORD ts)` (`include/media.h`, line 150): the
argument is converted to the 32 bits of the timestamp field. -/
def SetTimestamp (frame : VideoFrame) (ts : Nat) : VideoFrame :=
  { frame with ts := ts % 2 ^ 32 }

/-- `ForwardFrame`: returns the selector, the frame (it is passed by reference
and its timestamp is rewritten in place) and the calls made to the listeners.
The new timestamp is computed in `uint64_t` and stored through `SetTimestamp`. -/
def ForwardFrame (s : Selector) (frame : VideoFrame) : Selector × VideoFrame × List SinkCall :=
  let ts := frame.ts
  if ts < s.firstTimestamp then
    (s, frame, [])
  else
    let frame1 := SetTimestamp frame (add64 (ts - s.firstTimestamp) s.offsetTimestamp)
    let calls := s.listeners.map (fun listener => SinkCall.mk listener s.ssrc frame1)
    ({ s with lastTimestamp := ts, lastTime := frame1.time }, frame1, calls)

/-- One call of `ForwardFrame`, as the trace of an operation records it: the
layer under which the frame was received or buffered (the `ssrc` in scope
at the call), the value of the member `forwarded` when the call is made, the
frame that is passed, and the calls that `ForwardFrame` makes to the
listeners (none when the frame is rejected). -/
structure Forwarding where
  layer : Nat
  forwarded : Nat
  frame : VideoFrame
  calls : List SinkCall
  deriving DecidableEq, Repr

/-- The calls made to the listeners during a trace, in order. -/
def sinkCalls : List Forwarding → List SinkCall
  | [] => []
  | e :: rest => e.calls ++ sinkCalls rest

/-- A call `ForwardFrame(frame)` for a frame of the given layer, with its trace entry. -/
def forwardLog (layer : Nat) (s : Selector) (frame : VideoFrame) : Selector × List Forwarding :=
  let r := ForwardFrame s frame
  (r.1, [Forwarding.mk layer s.forwarded frame r.2.2])

/-- The first loop of `Select` (lines 65-75): every pending frame of the
forwarded layer marks the layer alive and is forwarded. -/
def forwardAlive (s : Selector) : List (Nat × VideoFrame) → Selector × Bool × List Forwarding
  | [] => (s, false, [])
  | (ssrc, pending) :: rest =>
    if ssrc = s.forwarded then
      let r := forwardLog ssrc s pending
      let q := forwardAlive r.1 rest
      (q.1, true, r.2 ++ q.2.2)
    else
      forwardAlive s rest

/-- The last loop of `Select` (lines 155-159): the pending frames of the
forwarded layer are forwarded in arrival order. -/
def forwardPending (s : Selector) : List (Nat × VideoFrame) → Selector × List Forwarding
  | [] => (s, [])
  | (ssrc, pending) :: rest =>
    if ssrc = s.forwarded then
      let r := forwardLog ssrc s pending
      let q := forwardPending r.1 rest
      (q.1, r.2 ++ q.2)
    else
      forwardPending s rest

/-- The locals of the candidate scan of `Select`, with the member `forwarded`
that the scan assigns. -/
structure Scan where
  selected : Option VideoFrame
  forwarded : Nat
  currentDimensions : Nat
  currentSize : Nat
  deriving DecidableEq, Repr

/-- One iteration of the candidate scan (lines 97-105). -/
def scanStep (c : Scan) (entry : Nat × VideoFrame) : Scan :=
  let dimensions := mul32 entry.2.width entry.2.height
  if c.currentDimensions < dimensions ∧ c.currentSize < entry.2.length then
    { c with selected := some entry.2, forwarded := entry.1, currentSize := entry.2.length }
  else
    c

/-- The candidate scan of `Select` (lines 92-106) over the entries in the order given. -/
def scan (forwarded : Nat) (entries : List (Nat × VideoFrame)) : Scan :=
  entries.foldl scanStep
    { selected := none, forwarded := forwarded, currentDimensions := 0, currentSize := 0 }

/-- The value of `diff` computed on a change of layer (lines 116-133). -/
def switchDiff (s : Selector) (prev : Nat) (selected : VideoFrame) : Nat :=
  match s.iframes.lookup prev with
  | some it => if it.ts > s.lastTimestamp then it.ts - s.lastTimestamp else 0
  | none =>
    if selected.time > s.lastTime then
      mul64 (selected.time - s.lastTime) selected.clockRate / 1000
    else 0

/-- The change of layer of `Select` (lines 112-143): when the forwarded layer
is no longer `prev`, the offset takes up the timestamps sent so far and `diff`,
and the first timestamp becomes that of the selected frame. -/
def changeLayer (s : Selector) (prev : Nat) (selected : VideoFrame) : Selector :=
  if prev ≠ s.forwarded then
    { s with
      offsetTimestamp :=
        add64 s.offsetTimestamp
          (add64 (sub64 s.lastTimestamp s.firstTimestamp) (switchDiff s prev selected))
      firstTimestamp := selected.ts }
  else s

/-- `Select`. -/
def Select (ord : IterOrder) (s : Selector) : Selector × List Forwarding :=
  let prev := s.forwarded
  let alive :=
    if s.iframes.length = 1 then forwardAlive s s.pendingFrames else (s, false, [])
  if alive.2.1 then
    ({ alive.1 with selectionTime := 0, pendingFrames := [] }, alive.2.2)
  else
    let s1 := alive.1
    let c := scan s1.forwarded (ord s1.iframes)
    match c.selected with
    | none => ({ s1 with forwarded := c.forwarded }, alive.2.2)
    | some selected =>
      let s2 := { s1 with forwarded := c.forwarded }
      let s3 := changeLayer s2 prev selected
      let r := forwardLog s3.forwarded s3 selected
      let s4 := { r.1 with iframes := [], selectionTime := 0 }
      let q := forwardPending s4 s4.pendingFrames
      ({ q.1 with pendingFrames := [] }, alive.2.2 ++ r.2 ++ q.2)

/-- `Stop`: the last selection, then `listeners.clear()`. -/
def Stop (ord : IterOrder) (s : Selector) : Selector × List Forwarding :=
  let r := Select ord s
  ({ r.1 with listeners := [] }, r.2)

/-- The buffering of an intra frame in `onMediaFrame` (lines 185-196): the first
candidate of a round starts the selection at its capture time; `try_emplace`
records the frame as the candidate of its layer unless the layer already has
one, in which case the frame goes to the pending frames. -/
def recordIntra (s : Selector) (ssrc : Nat) (frame : VideoFrame) : Selector :=
  let s1 := if s.iframes.isEmpty then { s with selectionTime := frame.time } else s
  match s1.iframes.lookup ssrc with
  | none => { s1 with iframes := s1.iframes ++ [(ssrc, frame)] }
  | some _ => { s1 with pendingFrames := s1.pendingFrames ++ [(ssrc, frame)] }

/-- The buffering of a frame during a selection (line 209). -/
def bufferPending (s : Selector) (ssrc : Nat) (frame : VideoFrame) : Selector :=
  { s with pendingFrames := s.pendingFrames ++ [(ssrc, frame)] }

/-- `onMediaFrame`. -/
def onMediaFrame (ord : IterOrder) (s : Selector) (ssrc : Nat) (frame : VideoFrame) :
    Selector × List Forwarding :=
  if frame.type ≠ MediaType.Video then
    (s, [])
  else
    let frameTime := frame.time
    if frame.intra then
      let s2 := recordIntra s ssrc frame
      if s2.iframes.length = s2.numLayers ∨ frameTime > add64 s2.selectionTime FrameWaitingTime then
        Select ord s2
      else
        (s2, [])
    else if s.selectionTime ≠ 0 then
      let s1 := bufferPending s ssrc frame
      if frameTime > add64 s1.selectionTime FrameWaitingTime then
        Select ord s1
      else
        (s1, [])
    else if ssrc = s.forwarded then
      forwardLog ssrc s frame
    else
      (s, [])

/-- A run of `onMediaFrame` calls, with the trace of the whole run. -/
def run (ord : IterOrder) (s : Selector) : List (Nat × VideoFrame) → Selector × List Forwarding
  | [] => (s, [])
  | (ssrc, frame) :: rest =>
    let r := onMediaFrame ord s ssrc frame
    let q := run ord r.1 rest
    (q.1, r.2 ++ q.2)

/-- The states that the public operations reach from an initial state, every
iteration over the candidate map visiting each entry once. -/
inductive Reachable : Selector → Prop where
  | init (ssrc numLayers noLayer : Nat) : Reachable (initial ssrc numLayers noLayer)
  | addListener {s : Selector} (listener : Nat) :
      Reachable s → Reachable (AddMediaListener s listener)
  | removeListener {s : Selector} (listener : Nat) :
      Reachable s → Reachable (RemoveMediaListener s listener)
  | setNumLayers {s : Selector} (numLayers : Nat) :
      Reachable s → Reachable (SetNumLayers s numLayers)
  | frame {s : Selector} (ord : IterOrder) (hord : ValidOrder ord) (ssrc : Nat)
      (f : VideoFrame) : Reachable s → Reachable (onMediaFrame ord s ssrc f).1
  | select {s : Selector} (ord : IterOrder) (hord : ValidOrder ord) :
      Reachable s → Reachable (Select ord s).1
  | stop {s : Selector} (ord : IterOrder) (hord : ValidOrder ord) :
      Reachable s → Reachable (Stop ord s).1

/-- The pixel area that the candidate scan computes for a frame. -/
def area (f : VideoFrame) : Nat := mul32 f.width f.height

/-- An intra video frame with clock rate 1000 and the given picture size. -/
def intraFrame (ts time length width height : Nat) : VideoFrame :=
  { type := MediaType.Video, ts := ts, time := time, clockRate := 1000, length := length,
    width := width, height := height, intra := true }

/-- A delta video frame with clock rate 1000. -/
def deltaFrame (ts time length : Nat) : VideoFrame :=
  { type := MediaType.Video, ts := ts, time := time, clockRate := 1000, length := length,
    width := 0, height := 0, intra := false }

/-- The trace entry of a call `ForwardFrame(e.2)` for the buffered entry `e`,
made in a state that agrees with `s` on everything but the last sent timestamp
and time. -/
def entryOf (s : Selector) (e : Nat × VideoFrame) : Forwarding :=
  Forwarding.mk e.1 s.forwarded e.2 (ForwardFrame s e.2).2.2

/-- The first exit of `Select` is taken: there is exactly one candidate and a
pending frame of the forwarded layer. -/
def loneAlive (s : Selector) : Prop :=
  s.iframes.length = 1 ∧ ∃ e ∈ s.pendingFrames, e.1 = s.forwarded

/-- A selector that forwards layer 2 from timestamp 4000 on, with two listeners. -/
def rejectState : Selector :=
  { initial 9 2 0 with
    listeners := [7, 8], forwarded := 2, firstTimestamp := 4000, offsetTimestamp := 100,
    lastTimestamp := 5000, lastTime := 77 }

/-- A selector that forwards layer 2, in a round whose only candidate is an
intra frame of layer 1, with pending frames of both layers. -/
def loneState : Selector :=
  { initial 9 2 0 with
    listeners := [7], forwarded := 2, firstTimestamp := 4000, offsetTimestamp := 100,
    lastTimestamp := 5000, lastTime := 77, selectionTime := 80,
    iframes := [(1, intraFrame 900 80 50000 640 480)],
    pendingFrames := [(2, deltaFrame 5100 90 10), (1, deltaFrame 950 95 10),
      (2, deltaFrame 5200 100 10)] }

/-- An intra frame of 10x10 pixels and 10 bytes. -/
def wideLight : VideoFrame := intraFrame 100 1000 10 10 10

/-- An intra frame of 5x5 pixels and 20 bytes. -/
def narrowHeavy : VideoFrame := intraFrame 100 1000 20 5 5

/-- The value of `diff` as the three ordered cases of the specification give
it: the gap on the previous layer when that layer has a candidate with a
timestamp above `lastTimestamp`; otherwise the capture-time gap of the selected
frame scaled by its clock rate, when its capture time is above `lastTime`;
otherwise zero. -/
def specDiff (s : Selector) (prev : Nat) (selected : VideoFrame) : Nat :=
  match s.iframes.lookup prev with
  | some it =>
    if it.ts > s.lastTimestamp then it.ts - s.lastTimestamp
    else if selected.time > s.lastTime then
      mul64 (selected.time - s.lastTime) selected.clockRate / 1000
    else 0
  | none =>
    if selected.time > s.lastTime then
      mul64 (selected.time - s.lastTime) selected.clockRate / 1000
    else 0

/-- Frames that make layer 1 the forwarded layer and then open a round in which
layer 1 repeats the timestamp of its last forwarded frame. -/
def repeatFrames : List (Nat × VideoFrame) :=
  [ (1, intraFrame 100 1000 10 1 1),
    (2, intraFrame 100 1000 5 1 1),
    (1, intraFrame 100 2000 5 1 1) ]

/-- The state in which `Select` runs when an intra frame of layer 2 with
timestamp 500 and capture time 2000 arrives after `repeatFrames`. -/
def repeatState : Selector :=
  { initial 9 2 0 with
    forwarded := 1, firstTimestamp := 100, offsetTimestamp := 1000, lastTimestamp := 100,
    lastTime := 1000, selectionTime := 2000,
    iframes := [(1, intraFrame 100 2000 5 1 1), (2, intraFrame 500 2000 10 1 1)] }

/-- Frames that make layer 2 the forwarded layer of a one-layer selector, with
`firstTimestamp` 4000, `offsetTimestamp` 100 and `lastTimestamp` 5000. -/
def scenarioFrames : List (Nat × VideoFrame) :=
  [ (2, intraFrame 4000 100 10 1 1),
    (2, deltaFrame 5000 200 10) ]

/-- The state in which `Select` runs when an intra frame of layer 1 with
timestamp 5300 arrives after `scenarioFrames`, layer 2 having no candidate. -/
def scenarioState : Selector :=
  { initial 9 1 0 with
    forwarded := 2, firstTimestamp := 4000, offsetTimestamp := 100, lastTimestamp := 5000,
    lastTime := 200, selectionTime := 200,
    iframes := [(1, intraFrame 5300 200 10 1 1)] }

/-- The scenario state with a candidate of layer 2, timestamp 5300, next to the
candidate of layer 1, which is the heavier one. -/
def scenarioBoth : Selector :=
  { scenarioState with
    iframes := [(2, intraFrame 5300 200 10 1 1), (1, intraFrame 5300 200 20 1 1)] }

/-- Frames after which a lone intra frame of layer 2 is answered by a late delta
frame of the forwarded layer 1. -/
def staleFrames : List (Nat × VideoFrame) :=
  [ (1, intraFrame 100 1000 10 1 1),
    (2, intraFrame 100 1000 5 1 1),
    (2, intraFrame 200 1100 5 1 1),
    (1, deltaFrame 200 1500 3) ]

/-- Frames with non-decreasing timestamps on each layer: layer 1 is selected,
then a round opened by layer 2 buffers a delta frame of layer 1 before the next
intra frame of layer 1. -/
def regressFrames : List (Nat × VideoFrame) :=
  [ (1, intraFrame 100 1000 10 1 1),
    (2, intraFrame 100 1000 5 1 1),
    (2, intraFrame 200 1100 5 1 1),
    (1, deltaFrame 200 1100 3),
    (1, intraFrame 300 1200 10 1 1) ]

/-- Each layer's frames arrive with non-decreasing timestamps. -/
def layerMonotone (frames : List (Nat × VideoFrame)) : Prop :=
  frames.Pairwise (fun e1 e2 => e1.1 = e2.1 → e1.2.ts ≤ e2.2.ts)

/-- The timestamps that the listeners receive during a trace, in order. -/
def sentTimestamps (trace : List Forwarding) : List Nat :=
  (sinkCalls trace).map (fun c => c.frame.ts)

/-- The forwarding discipline of one step that starts in `s` and returns `r`:
every call of `ForwardFrame` passes a frame of the layer that is forwarded
when the call is made, that layer is the one the step leaves forwarded, and the
frame comes from `buffers` under that layer; and when the step changes the
forwarded layer, the first call passes a candidate intra frame of the new
layer from `candidates`, which is not rejected: it reaches every listener, with
the new offset stored as its timestamp. -/
def StepOk (s : Selector) (buffers candidates : List (Nat × VideoFrame))
    (r : Selector × List Forwarding) : Prop :=
  (∀ e ∈ r.2, e.layer = e.forwarded ∧ e.forwarded = r.1.forwarded ∧
    (e.layer, e.frame) ∈ buffers) ∧
  (r.1.forwarded ≠ s.forwarded →
    ∃ w rest,
      r.2 = Forwarding.mk r.1.forwarded r.1.forwarded w
          (s.listeners.map
            (fun l => SinkCall.mk l s.ssrc (SetTimestamp w r.1.offsetTimestamp))) :: rest ∧
      (r.1.forwarded, w) ∈ candidates ∧ w.intra = true ∧ r.1.firstTimestamp = w.ts)

/-- The selector with listener 7 after the first frame of `regressFrames` and
of `staleFrames`, whatever value `noLayer` stands for no forwarded layer. -/
def firstRecorded (noLayer : Nat) : Selector :=
  { initial 9 2 noLayer with
    listeners := [7], selectionTime := 1000, iframes := [(1, intraFrame 100 1000 10 1 1)] }

/-- The selector with listener 7 after the first round of `regressFrames` and
of `staleFrames`, when `noLayer` is neither layer 1 nor layer 2. -/
def afterFirstRound : Selector :=
  { initial 9 2 0 with
    listeners := [7], forwarded := 1, firstTimestamp := 100, offsetTimestamp := 1000,
    lastTimestamp := 100, lastTime := 1000 }

/-- The call of `Select` that `onMediaFrame` makes (lines 198-200 and 212-214):
the state in which `Select` is called, or none when `onMediaFrame` returns
without calling it. -/
def selectCall (s : Selector) (ssrc : Nat) (frame : VideoFrame) : Option Selector :=
  if frame.type ≠ MediaType.Video then
    none
  else
    let frameTime := frame.time
    if frame.intra then
      let s2 := recordIntra s ssrc frame
      if s2.iframes.length = s2.numLayers ∨ frameTime > add64 s2.selectionTime FrameWaitingTime then
        some s2
      else
        none
    else if s.selectionTime ≠ 0 then
      let s1 := bufferPending s ssrc frame
      if frameTime > add64 s1.selectionTime FrameWaitingTime then
        some s1
      else
        none
    else
      none

/-- What `onMediaFrame` does when it does not call `Select`: the frame is
recorded, buffered, forwarded or dropped. -/
def withoutSelect (s : Selector) (ssrc : Nat) (frame : VideoFrame) : Selector × List Forwarding :=
  if frame.type ≠ MediaType.Video then
    (s, [])
  else if frame.intra then
    (recordIntra s ssrc frame, [])
  else if s.selectionTime ≠ 0 then
    (bufferPending s ssrc frame, [])
  else if ssrc = s.forwarded then
    forwardLog ssrc s frame
  else
    (s, [])

/-- A round in which layer 1 already has a candidate. -/
def dupState : Selector :=
  { initial 9 2 0 with
    listeners := [7], forwarded := 2, selectionTime := 1000,
    iframes := [(1, intraFrame 100 1000 10 1 1)] }

/-- The state in which `ForwardFrame` runs after a change to layer `layer` with
winner `w` and new offset `offset`. -/
def switched (s : Selector) (layer offset : Nat) (w : VideoFrame) : Selector :=
  { s with forwarded := layer, offsetTimestamp := offset, firstTimestamp := w.ts }

/-- The timestamp that the frame with timestamp `lastTimestamp` received when
it was rewritten with the current `firstTimestamp` and `offsetTimestamp`: the
`uint64_t` sum as `SetTimestamp(DWORD)` stores it. -/
def lastOutput (s : Selector) : Nat :=
  add64 (s.lastTimestamp - s.firstTimestamp) s.offsetTimestamp % 2 ^ 32

/-- Frames after which layer 1 is forwarded and a round holds a candidate of
layer 1 and a pending delta frame of layer 2. -/
def lossFrames : List (Nat × VideoFrame) :=
  [ (1, intraFrame 100 1000 10 1 1),
    (2, intraFrame 100 1000 5 1 1),
    (1, intraFrame 200 1100 5 1 1),
    (2, deltaFrame 150 1100 3) ]

/-- The state in which `Select` runs when the intra frame of layer 2 with
timestamp 200 arrives after `lossFrames`. -/
def lossState : Selector :=
  { initial 9 2 0 with
    listeners := [7], forwarded := 1, firstTimestamp := 100, offsetTimestamp := 1000,
    lastTimestamp := 100, lastTime := 1000, selectionTime := 1100,
    iframes := [(1, intraFrame 200 1100 5 1 1), (2, intraFrame 200 1150 10 1 1)],
    pendingFrames := [(2, deltaFrame 150 1100 3)] }

/-- A selector with listener 7 whose only candidate is an intra frame of layer 1
without picture size (width and height 0). -/
def unsizedRound : Selector :=
  (run id (AddMediaListener (initial 9 2 0) 7) [(1, intraFrame 100 1000 10 0 0)]).1

/-! ### The payload of a media frame (`include/media.h`) -/

/-- Modelled from the spec: the byte buffer of `Buffer.h`, which is not among
the sources: a growable byte region, here its bytes (`GetData`, with `GetSize`
their number) and its capacity (`GetCapacity`). -/
structure Buffer where
  data : List Nat
  capacity : Nat
  deriving DecidableEq, Repr

/-- The operations of `Buffer` that `MediaFrame` calls, taken as parameters
since `Buffer.h` is not among the sources: the constructors `Buffer(size)` and
`Buffer(data, size)`, and the methods `SetSize`, `Alloc`, `SetData` and
`AppendData`, each acting on the buffer it is called on. -/
structure BufferOps where
  fresh : Nat → Buffer
  copy : List Nat → Buffer
  setSize : Buffer → Nat → Buffer
  alloc : Buffer → Nat → Buffer
  setData : Buffer → List Nat → Buffer
  appendData : Buffer → List Nat → Buffer

/-- The buffers that `std::shared_ptr<Buffer>` values point to; a pointer is an
index into the heap and `make_shared` adds a buffer at the end. -/
abbrev Heap := List Buffer

/-- The buffer behind a pointer; the heap holds every buffer that a frame
points to. -/
def deref (h : Heap) (p : Nat) : Buffer := h.getD p (Buffer.mk [] 0)

/-- The members of `MediaFrame` that its operations on the payload touch. -/
structure MediaFrame where
  type : MediaType
  ts : Nat
  buffer : Nat
  ownedBuffer : Bool
  rtpInfo : List (Nat × Nat × List Nat)
  deriving DecidableEq, Repr

/-- `MediaFrame(Type type, DWORD size)`: a new buffer, owned by the frame. -/
def MediaFrame.create (ops : BufferOps) (h : Heap) (type : MediaType) (size : Nat) :
    Heap × MediaFrame :=
  (h ++ [ops.fresh size],
    { type := type, ts := 2 ^ 32 - 1, buffer := h.length, ownedBuffer := true, rtpInfo := [] })

/-- `MediaFrame(Type type, const std::shared_ptr<Buffer>& buffer)`: the frame
shares the buffer and does not own it. -/
def MediaFrame.wrap (h : Heap) (type : MediaType) (buffer : Nat) : Heap × MediaFrame :=
  (h, { type := type, ts := 2 ^ 32 - 1, buffer := buffer, ownedBuffer := false, rtpInfo := [] })

/-- `AdquireBuffer`: a frame that does not own its buffer replaces it by a copy
of its bytes, which it owns. -/
def AdquireBuffer (ops : BufferOps) (h : Heap) (f : MediaFrame) : Heap × MediaFrame :=
  if f.ownedBuffer then
    (h, f)
  else
    (h ++ [ops.copy (deref h f.buffer).data], { f with buffer := h.length, ownedBuffer := true })

/-- The frame's buffer after `AdquireBuffer`, replaced by what a method of
`Buffer` makes of it. -/
def onOwnBuffer (ops : BufferOps) (h : Heap) (f : MediaFrame) (method : Buffer → Buffer) :
    Heap × MediaFrame :=
  let a := AdquireBuffer ops h f
  (a.1.set a.2.buffer (method (deref a.1 a.2.buffer)), a.2)

/-- The buffer that a mutating operation of a frame acts on after
`AdquireBuffer`: the frame's own buffer, or a copy of the bytes of the buffer
it shares. -/
def writable (ops : BufferOps) (h : Heap) (f : MediaFrame) : Buffer :=
  if f.ownedBuffer then deref h f.buffer else ops.copy (deref h f.buffer).data

/-- The mutable `GetData`: `AdquireBuffer`, then the caller writes through the
pointer that is returned; `write` is what the caller makes of the bytes. -/
def GetData (ops : BufferOps) (h : Heap) (f : MediaFrame) (write : List Nat → List Nat) :
    Heap × MediaFrame :=
  onOwnBuffer ops h f (fun b => { b with data := write b.data })

/-- `SetLength`. -/
def SetLength (ops : BufferOps) (h : Heap) (f : MediaFrame) (length : Nat) : Heap × MediaFrame :=
  onOwnBuffer ops h f (fun b => ops.setSize b length)

/-- `Alloc`. -/
def Alloc (ops : BufferOps) (h : Heap) (f : MediaFrame) (size : Nat) : Heap × MediaFrame :=
  onOwnBuffer ops h f (fun b => ops.alloc b size)

/-- `SetMedia`. -/
def SetMedia (ops : BufferOps) (h : Heap) (f : MediaFrame) (data : List Nat) :
    Heap × MediaFrame :=
  onOwnBuffer ops h f (fun b => ops.setData b data)

/-- `AppendMedia`: returns the size of the buffer before the call, read before
`AdquireBuffer`. -/
def AppendMedia (ops : BufferOps) (h : Heap) (f : MediaFrame) (data : List Nat) :
    (Heap × MediaFrame) × Nat :=
  let pos := (deref h f.buffer).data.length
  (onOwnBuffer ops h f (fun b => ops.appendData b data), pos)

/-- `ResetData`: a new buffer, owned by the frame. -/
def ResetData (ops : BufferOps) (h : Heap) (f : MediaFrame) (size : Nat) : Heap × MediaFrame :=
  (h ++ [ops.fresh size], { f with buffer := h.length, ownedBuffer := true })

/-- `Reset`: the packetization info is cleared, the data reset with size 0 and
the timestamp set to `(DWORD)-1`. -/
def Reset (ops : BufferOps) (h : Heap) (f : MediaFrame) : Heap × MediaFrame :=
  let r := ResetData ops h { f with rtpInfo := [] } 0
  (r.1, { r.2 with ts := 2 ^ 32 - 1 })

/-- The mutating operations of `MediaFrame` on its payload, with their arguments. -/
inductive Mutation where
  | getData (write : List Nat → List Nat)
  | setLength (length : Nat)
  | alloc (size : Nat)
  | setMedia (data : List Nat)
  | appendMedia (data : List Nat)
  | resetData (size : Nat)
  | reset

/-- The heap and the frame after a mutating operation. -/
def Mutation.apply (ops : BufferOps) (h : Heap) (f : MediaFrame) : Mutation → Heap × MediaFrame
  | Mutation.getData write => GetData ops h f write
  | Mutation.setLength length => SetLength ops h f length
  | Mutation.alloc size => Alloc ops h f size
  | Mutation.setMedia data => SetMedia ops h f data
  | Mutation.appendMedia data => (AppendMedia ops h f data).1
  | Mutation.resetData size => ResetData ops h f size
  | Mutation.reset => Reset ops h f

/-- Buffer operations on a list of bytes, to evaluate the frame operations. -/
def listOps : BufferOps :=
  { fresh := fun size => Buffer.mk [] size
    copy := fun data => Buffer.mk data data.length
    setSize := fun b n => Buffer.mk (b.data.take n) b.capacity
    alloc := fun b n => Buffer.mk b.data (max b.capacity n)
    setData := fun b data => Buffer.mk data (max b.capacity data.length)
    appendData := fun b data => Buffer.mk (b.data ++ data) (max b.capacity (b.data.length + data.length)) }

/-- A heap with one buffer of three bytes. -/
def sharedHeap : Heap := [Buffer.mk [1, 2, 3] 3]

/-- Frames after which layer 2 is forwarded and a round holds a candidate of
layer 1 recorded at capture time 2000. -/
def dupFrames : List (Nat × VideoFrame) :=
  [ (2, intraFrame 100 1000 10 1 1),
    (1, intraFrame 100 1000 5 1 1),
    (1, intraFrame 200 2000 5 1 1) ]

/-- The first intra frame of a single-layer stream whose capture times are
wall-clock milliseconds. -/
def epochFrames : List (Nat × VideoFrame) :=
  [(1, intraFrame 100 1700000000000 10 1 1)]

/-- The selector after `epochFrames`: layer 1 is forwarded and the offset is
the capture time of its first frame in clock units. -/
def epochState : Selector :=
  { initial 9 1 0 with
    listeners := [7], forwarded := 1, firstTimestamp := 100,
    offsetTimestamp := 1700000000000, lastTimestamp := 100, lastTime := 1700000000000 }

/-- Two intra frames of a single-layer selector, of layers 1 and 2, whose
capture times lie one millisecond apart around `2 ^ 32`. -/
def wrapFrames : List (Nat × VideoFrame) :=
  [ (1, intraFrame 100 4294967295 10 1 1),
    (2, intraFrame 500 4294967296 10 1 1) ]

/-- The state in which `Select` runs for the second frame of `wrapFrames`. -/
def wrapState : Selector :=
  { initial 9 1 0 with
    listeners := [7], forwarded := 1, firstTimestamp := 100, offsetTimestamp := 4294967295,
    lastTimestamp := 100, lastTime := 4294967295, selectionTime := 4294967296,
    iframes := [(2, intraFrame 500 4294967296 10 1 1)] }

/-! ## Properties of the operations -/

theorem ForwardFrame_state (s : Selector) (f : VideoFrame) :
    ∃ a b, (ForwardFrame s f).1 = { s with lastTimestamp := a, lastTime := b } := by
  unfold ForwardFrame
  dsimp only
  split
  · exact ⟨s.lastTimestamp, s.lastTime, rfl⟩
  · exact ⟨f.ts, f.time, rfl⟩

theorem ForwardFrame_last_irrelevant (s : Selector) (a b : Nat) (f : VideoFrame) :
    (ForwardFrame { s with lastTimestamp := a, lastTime := b } f).2 = (ForwardFrame s f).2 := by
  unfold ForwardFrame
  dsimp only
  split <;> rfl

theorem forwardLog_state (layer : Nat) (s : Selector) (a b : Nat) (f : VideoFrame) :
    ∃ a1 b1, (forwardLog layer { s with lastTimestamp := a, lastTime := b } f).1 =
      { s with lastTimestamp := a1, lastTime := b1 } := by
  obtain ⟨a1, b1, h⟩ := ForwardFrame_state { s with lastTimestamp := a, lastTime := b } f
  exact ⟨a1, b1, by simp only [forwardLog, h]⟩

theorem forwardLog_trace (s : Selector) (a b : Nat) (e : Nat × VideoFrame) :
    (forwardLog e.1 { s with lastTimestamp := a, lastTime := b } e.2).2 = [entryOf s e] := by
  simp only [forwardLog, entryOf, ForwardFrame_last_irrelevant]

theorem forwardPending_spec (s : Selector) :
    ∀ (l : List (Nat × VideoFrame)) (a b : Nat),
      (forwardPending { s with lastTimestamp := a, lastTime := b } l).2 =
        (l.filter (fun e => decide (e.1 = s.forwarded))).map (entryOf s) ∧
      ∃ a1 b1, (forwardPending { s with lastTimestamp := a, lastTime := b } l).1 =
        { s with lastTimestamp := a1, lastTime := b1 }
  | [], a, b => ⟨rfl, a, b, rfl⟩
  | (ssrc, f) :: rest, a, b => by
    by_cases h : ssrc = s.forwarded
    · obtain ⟨a1, b1, h1⟩ := forwardLog_state ssrc s a b f
      have h2 := forwardLog_trace s a b (ssrc, f)
      obtain ⟨ih1, a2, b2, ih2⟩ := forwardPending_spec s rest a1 b1
      simp only [forwardPending, h, if_true] at *
      rw [h1, h2, ih1, ih2]
      exact ⟨by simp [List.filter_cons], a2, b2, rfl⟩
    · obtain ⟨ih1, a2, b2, ih2⟩ := forwardPending_spec s rest a b
      simp only [forwardPending, h, if_false]
      rw [ih1, ih2]
      exact ⟨by simp [List.filter_cons, h], a2, b2, rfl⟩

theorem forwardAlive_spec (s : Selector) :
    ∀ (l : List (Nat × VideoFrame)) (a b : Nat),
      (forwardAlive { s with lastTimestamp := a, lastTime := b } l).2.2 =
        (l.filter (fun e => decide (e.1 = s.forwarded))).map (entryOf s) ∧
      (forwardAlive { s with lastTimestamp := a, lastTime := b } l).2.1 =
        l.any (fun e => decide (e.1 = s.forwarded)) ∧
      ∃ a1 b1, (forwardAlive { s with lastTimestamp := a, lastTime := b } l).1 =
        { s with lastTimestamp := a1, lastTime := b1 }
  | [], a, b => ⟨rfl, rfl, a, b, rfl⟩
  | (ssrc, f) :: rest, a, b => by
    by_cases h : ssrc = s.forwarded
    · obtain ⟨a1, b1, h1⟩ := forwardLog_state ssrc s a b f
      have h2 := forwardLog_trace s a b (ssrc, f)
      obtain ⟨ih1, _, a2, b2, ih2⟩ := forwardAlive_spec s rest a1 b1
      simp only [forwardAlive, h, if_true] at *
      rw [h1, h2, ih1, ih2]
      exact ⟨by simp [List.filter_cons], by simp, a2, b2, rfl⟩
    · obtain ⟨ih1, ih3, a2, b2, ih2⟩ := forwardAlive_spec s rest a b
      simp only [forwardAlive, h, if_false]
      rw [ih1, ih2, ih3]
      exact ⟨by simp [List.filter_cons, h], by simp [h], a2, b2, rfl⟩

theorem ForwardFrame_forwarded (s : Selector) (f : VideoFrame) :
    (ForwardFrame s f).1.forwarded = s.forwarded := by
  unfold ForwardFrame
  dsimp only
  split <;> rfl

theorem filter_eq_singleton (l : Nat) :
    ∀ t : List Nat, t.Nodup → l ∈ t → t.filter (fun x => decide (x = l)) = [l]
  | [], _, hl => by simp at hl
  | a :: t, hnd, hl => by
    have hnd2 := List.nodup_cons.mp hnd
    by_cases hal : a = l
    · subst hal
      have : List.filter (fun x => decide (x = a)) t = [] := by
        rw [List.filter_eq_nil_iff]
        intro x hx
        simp only [decide_eq_true_eq]
        intro hxa
        exact hnd2.1 (hxa ▸ hx)
      simp [List.filter_cons, this]
    · have hl2 : l ∈ t := by
        rcases List.mem_cons.mp hl with h1 | h1
        · exact absurd h1.symm hal
        · exact h1
      simp [List.filter_cons, hal, filter_eq_singleton l t hnd2.2 hl2]

/-- C9 (out-of-order rejection): a frame whose timestamp is below
`firstTimestamp` is dropped by `ForwardFrame`: no listener is called, the frame
keeps its timestamp, and the selector, `lastTimestamp` and `lastTime` included,
is left as it was. -/
theorem ForwardFrame_rejects_out_of_order (s : Selector) (frame : VideoFrame)
    (h : frame.ts < s.firstTimestamp) :
    ForwardFrame s frame = (s, frame, []) ∧
    (ForwardFrame s frame).2.2 = [] ∧
    (ForwardFrame s frame).2.1.ts = frame.ts ∧
    (ForwardFrame s frame).1.lastTimestamp = s.lastTimestamp ∧
    (ForwardFrame s frame).1.lastTime = s.lastTime ∧
    (∀ layer, sinkCalls (forwardLog layer s frame).2 = [] ∧ (forwardLog layer s frame).1 = s) := by
  have e : ForwardFrame s frame = (s, frame, []) := by
    unfold ForwardFrame
    simp [h]
  refine ⟨e, ?_, ?_, ?_, ?_, ?_⟩ <;> simp [e, forwardLog, sinkCalls]

theorem ForwardFrame_rejects_out_of_order_witness :
    (deltaFrame 3999 5 1).ts < rejectState.firstTimestamp ∧
    ForwardFrame rejectState (deltaFrame 3999 5 1) = (rejectState, deltaFrame 3999 5 1, []) ∧
    (ForwardFrame rejectState (deltaFrame 3999 5 1)).1.lastTimestamp = 5000 :=
  ⟨by decide, (ForwardFrame_rejects_out_of_order rejectState (deltaFrame 3999 5 1) (by decide)).1,
    (ForwardFrame_rejects_out_of_order rejectState (deltaFrame 3999 5 1) (by decide)).2.2.2.1⟩

/-- C10 (accepted forward), as amended: a frame with `firstTimestamp <= ts` gets the
timestamp `ts - firstTimestamp + offsetTimestamp` computed in `uint64_t` and
stored through `SetTimestamp(DWORD)`, that is reduced modulo `2 ^ 32` (the
exact sum when it is below `2 ^ 32`), is passed once to every registered
listener under the own `ssrc`, and then `lastTimestamp` is the original `ts`
and `lastTime` the capture time; no other member changes. -/
theorem ForwardFrame_accepts (s : Selector) (frame : VideoFrame)
    (h : s.firstTimestamp ≤ frame.ts) :
    (ForwardFrame s frame).2.1 =
        { frame with ts := (frame.ts - s.firstTimestamp + s.offsetTimestamp) % 2 ^ 64 % 2 ^ 32 } ∧
    (ForwardFrame s frame).2.1.ts =
        (frame.ts - s.firstTimestamp + s.offsetTimestamp) % 2 ^ 32 ∧
    (frame.ts - s.firstTimestamp + s.offsetTimestamp < 2 ^ 32 →
      (ForwardFrame s frame).2.1.ts = frame.ts - s.firstTimestamp + s.offsetTimestamp) ∧
    (ForwardFrame s frame).2.2 =
        s.listeners.map (fun l => SinkCall.mk l s.ssrc (ForwardFrame s frame).2.1) ∧
    (s.listeners.Nodup → ∀ l ∈ s.listeners,
      (ForwardFrame s frame).2.2.filter (fun c => c.listener = l) =
        [SinkCall.mk l s.ssrc (ForwardFrame s frame).2.1]) ∧
    (∀ c ∈ (ForwardFrame s frame).2.2, c.listener ∈ s.listeners ∧ c.ssrc = s.ssrc) ∧
    (ForwardFrame s frame).1 =
        { s with lastTimestamp := frame.ts, lastTime := frame.time } := by
  have hn : ¬ frame.ts < s.firstTimestamp := Nat.not_lt.mpr h
  have e : ForwardFrame s frame =
      ({ s with lastTimestamp := frame.ts, lastTime := frame.time },
       { frame with ts := (frame.ts - s.firstTimestamp + s.offsetTimestamp) % 2 ^ 64 % 2 ^ 32 },
       s.listeners.map (fun l => SinkCall.mk l s.ssrc
        { frame with ts := (frame.ts - s.firstTimestamp + s.offsetTimestamp) % 2 ^ 64 % 2 ^ 32 })) := by
    unfold ForwardFrame
    simp only [if_neg hn, SetTimestamp, add64]
  have hmod : (frame.ts - s.firstTimestamp + s.offsetTimestamp) % 2 ^ 64 % 2 ^ 32 =
      (frame.ts - s.firstTimestamp + s.offsetTimestamp) % 2 ^ 32 :=
    Nat.mod_mod_of_dvd _ (by norm_num)
  refine ⟨by rw [e], ?_, ?_, by rw [e], ?_, ?_, by rw [e]⟩
  · rw [e]
    exact hmod
  · intro hlt
    rw [e]
    exact hmod.trans (Nat.mod_eq_of_lt hlt)
  · intro hnd l hl
    rw [e]
    simp only [List.filter_map]
    have h2 : ((fun c : SinkCall => decide (c.listener = l)) ∘ fun l => SinkCall.mk l s.ssrc
        { frame with ts := (frame.ts - s.firstTimestamp + s.offsetTimestamp) % 2 ^ 64 % 2 ^ 32 }) =
        fun x => decide (x = l) := by
      funext x; simp
    rw [h2, filter_eq_singleton l s.listeners hnd hl]
    rfl
  · intro c hc
    rw [e] at hc
    simp at hc
    obtain ⟨a, ha, rfl⟩ := hc
    exact ⟨ha, rfl⟩

theorem ForwardFrame_accepts_witness :
    rejectState.firstTimestamp ≤ (deltaFrame 5100 90 10).ts ∧
    (ForwardFrame rejectState (deltaFrame 5100 90 10)).2.1.ts = 1200 ∧
    (ForwardFrame rejectState (deltaFrame 5100 90 10)).2.2 =
      [SinkCall.mk 7 9 { deltaFrame 5100 90 10 with ts := 1200 },
        SinkCall.mk 8 9 { deltaFrame 5100 90 10 with ts := 1200 }] ∧
    (ForwardFrame rejectState (deltaFrame 5100 90 10)).1 =
      { rejectState with lastTimestamp := 5100, lastTime := 90 } :=
  have h := ForwardFrame_accepts rejectState (deltaFrame 5100 90 10) (by decide)
  ⟨by decide, (h.2.2.1 (by decide)).trans (by decide), h.2.2.2.1.trans (by decide),
    h.2.2.2.2.2.2⟩

/-- C10, as the specification words it: the rewritten timestamp of an accepted
frame is not always `ts - firstTimestamp + offsetTimestamp`.  The first intra
frame of a stream whose capture times are wall-clock milliseconds sets the
offset to `1700000000000`; the frame is accepted (`100 <= 100`) and the sum is
`1700000000000`, but the listener receives the timestamp `3487918080`, the
sum modulo `2 ^ 32`.  The same holds for the next frame of the layer. -/
theorem ForwardFrame_timestamp_counterexample :
    (run id (AddMediaListener (initial 9 1 0) 7) epochFrames).1 = epochState ∧
    sentTimestamps (run id (AddMediaListener (initial 9 1 0) 7) epochFrames).2 = [3487918080] ∧
    epochState.firstTimestamp ≤ (deltaFrame 190 1700000000001 10).ts ∧
    (deltaFrame 190 1700000000001 10).ts - epochState.firstTimestamp +
      epochState.offsetTimestamp = 1700000000090 ∧
    (ForwardFrame epochState (deltaFrame 190 1700000000001 10)).2.1.ts = 3487918170 ∧
    (ForwardFrame epochState (deltaFrame 190 1700000000001 10)).2.2 =
      [SinkCall.mk 7 9 { deltaFrame 190 1700000000001 10 with ts := 3487918170 }] := by
  refine ⟨by decide, by decide, by decide, by decide, by decide, by decide⟩

theorem forwardAlive_false :
    ∀ (l : List (Nat × VideoFrame)) (s : Selector),
      (forwardAlive s l).2.1 = false → forwardAlive s l = (s, false, [])
  | [], _, _ => rfl
  | (ssrc, f) :: rest, s, h => by
    by_cases hs : ssrc = s.forwarded
    · simp [forwardAlive, hs] at h
    · simp only [forwardAlive, hs, if_false] at h ⊢
      exact forwardAlive_false rest s h

theorem loneAlive_iff (s : Selector) :
    loneAlive s ↔
      (if s.iframes.length = 1 then forwardAlive s s.pendingFrames else (s, false, [])).2.1 = true := by
  unfold loneAlive
  by_cases h : s.iframes.length = 1
  · have h2 := (forwardAlive_spec s s.pendingFrames s.lastTimestamp s.lastTime).2.1
    simp only [h, if_true, true_and]
    rw [show forwardAlive s s.pendingFrames = forwardAlive
      { s with lastTimestamp := s.lastTimestamp, lastTime := s.lastTime } s.pendingFrames from rfl, h2]
    simp [List.any_eq_true]
  · simp [h]

/-- What the candidate scan has established after any number of iterations. -/
theorem scan_foldl_inv (fwd : Nat) :
    ∀ (l done : List (Nat × VideoFrame)) (c : Scan),
      c.currentDimensions = 0 →
      (c.selected = none → c.forwarded = fwd ∧ c.currentSize = 0) →
      (∀ w, c.selected = some w → (c.forwarded, w) ∈ done ∧ c.currentSize = w.length ∧
        0 < area w ∧ 0 < w.length) →
      (l.foldl scanStep c).currentDimensions = 0 ∧
      ((l.foldl scanStep c).selected = none → (l.foldl scanStep c).forwarded = fwd) ∧
      (∀ w, (l.foldl scanStep c).selected = some w →
        ((l.foldl scanStep c).forwarded, w) ∈ done ++ l ∧
        (l.foldl scanStep c).currentSize = w.length ∧ 0 < area w ∧ 0 < w.length)
  | [], done, c, h0, hn, hs => by
    simp only [List.foldl_nil, List.append_nil]
    exact ⟨h0, fun h => (hn h).1, hs⟩
  | e :: rest, done, c, h0, hn, hs => by
    have ih := scan_foldl_inv fwd rest (done ++ [e]) (scanStep c e)
    simp only [List.foldl_cons]
    have key : (scanStep c e).currentDimensions = 0 ∧
        ((scanStep c e).selected = none → (scanStep c e).forwarded = fwd ∧ (scanStep c e).currentSize = 0) ∧
        (∀ w, (scanStep c e).selected = some w → ((scanStep c e).forwarded, w) ∈ done ++ [e] ∧
          (scanStep c e).currentSize = w.length ∧ 0 < area w ∧ 0 < w.length) := by
      unfold scanStep
      dsimp only
      split
      · rename_i hc
        refine ⟨h0, ?_, ?_⟩
        · intro h; simp at h
        · intro w hw
          simp only [Option.some.injEq] at hw
          subst hw
          rw [h0] at hc
          refine ⟨by simp, rfl, hc.1, Nat.lt_of_le_of_lt (Nat.zero_le _) hc.2⟩
      · refine ⟨h0, hn, ?_⟩
        intro w hw
        obtain ⟨a, b, c1, d⟩ := hs w hw
        exact ⟨by simp [a], b, c1, d⟩
    have r := ih key.1 key.2.1 key.2.2
    simpa [List.append_assoc] using r

theorem scan_none (fwd : Nat) (l : List (Nat × VideoFrame)) (h : (scan fwd l).selected = none) :
    (scan fwd l).forwarded = fwd := by
  have := scan_foldl_inv fwd l [] ⟨none, fwd, 0, 0⟩ rfl (fun _ => ⟨rfl, rfl⟩) (fun w hw => by simp at hw)
  exact this.2.1 h

theorem scan_some (fwd : Nat) (l : List (Nat × VideoFrame)) (w : VideoFrame)
    (h : (scan fwd l).selected = some w) :
    ((scan fwd l).forwarded, w) ∈ l ∧ (scan fwd l).currentSize = w.length ∧
      0 < area w ∧ 0 < w.length := by
  have := scan_foldl_inv fwd l [] ⟨none, fwd, 0, 0⟩ rfl (fun _ => ⟨rfl, rfl⟩) (fun w hw => by simp at hw)
  simpa using this.2.2 w h

/-- The first exit of `Select`. -/
theorem Select_lone (ord : IterOrder) (s : Selector) (h : loneAlive s) :
    (Select ord s).2 =
        (s.pendingFrames.filter (fun e => decide (e.1 = s.forwarded))).map (entryOf s) ∧
    ∃ a b, (Select ord s).1 =
        { s with lastTimestamp := a, lastTime := b, selectionTime := 0, pendingFrames := [] } := by
  have hl := h.1
  have ha := (loneAlive_iff s).mp h
  simp only [hl, if_true] at ha
  obtain ⟨h1, _, a, b, h3⟩ := forwardAlive_spec s s.pendingFrames s.lastTimestamp s.lastTime
  change (forwardAlive s s.pendingFrames).2.2 = _ at h1
  change (forwardAlive s s.pendingFrames).1 = _ at h3
  unfold Select
  simp only [hl, if_true, ha]
  rw [h1, h3]
  exact ⟨rfl, a, b, rfl⟩

/-- `Select` finds no winner. -/
theorem Select_none (ord : IterOrder) (s : Selector) (h : ¬ loneAlive s)
    (hsel : (scan s.forwarded (ord s.iframes)).selected = none) :
    Select ord s = (s, []) := by
  have ha := (loneAlive_iff s).not.mp h
  simp only [Bool.not_eq_true] at ha
  have hst : (if s.iframes.length = 1 then forwardAlive s s.pendingFrames else (s, false, [])) =
      (s, false, []) := by
    by_cases hl : s.iframes.length = 1
    · simp only [hl, if_true] at ha ⊢
      exact forwardAlive_false _ _ ha
    · simp [hl]
  unfold Select
  simp only [hst, hsel, Bool.false_eq_true, if_false]
  rw [scan_none _ _ hsel]

/-- Two selectors that `ForwardFrame` cannot tell apart. -/
theorem ForwardFrame_congr (s t : Selector) (f : VideoFrame)
    (h1 : t.listeners = s.listeners) (h2 : t.ssrc = s.ssrc)
    (h3 : t.firstTimestamp = s.firstTimestamp) (h4 : t.offsetTimestamp = s.offsetTimestamp) :
    (ForwardFrame t f).2 = (ForwardFrame s f).2 := by
  unfold ForwardFrame
  dsimp only
  rw [h1, h2, h3, h4]
  split <;> rfl

theorem ForwardFrame_fields (s : Selector) (f : VideoFrame) :
    (ForwardFrame s f).1.ssrc = s.ssrc ∧
    (ForwardFrame s f).1.numLayers = s.numLayers ∧
    (ForwardFrame s f).1.listeners = s.listeners ∧
    (ForwardFrame s f).1.forwarded = s.forwarded ∧
    (ForwardFrame s f).1.firstTimestamp = s.firstTimestamp ∧
    (ForwardFrame s f).1.offsetTimestamp = s.offsetTimestamp ∧
    (ForwardFrame s f).1.selectionTime = s.selectionTime ∧
    (ForwardFrame s f).1.iframes = s.iframes ∧
    (ForwardFrame s f).1.pendingFrames = s.pendingFrames := by
  obtain ⟨a, b, h⟩ := ForwardFrame_state s f
  rw [h]
  exact ⟨rfl, rfl, rfl, rfl, rfl, rfl, rfl, rfl, rfl⟩

theorem forwardPending_fields :
    ∀ (l : List (Nat × VideoFrame)) (s : Selector),
    (forwardPending s l).1.ssrc = s.ssrc ∧
    (forwardPending s l).1.numLayers = s.numLayers ∧
    (forwardPending s l).1.listeners = s.listeners ∧
    (forwardPending s l).1.forwarded = s.forwarded ∧
    (forwardPending s l).1.firstTimestamp = s.firstTimestamp ∧
    (forwardPending s l).1.offsetTimestamp = s.offsetTimestamp ∧
    (forwardPending s l).1.selectionTime = s.selectionTime ∧
    (forwardPending s l).1.iframes = s.iframes ∧
    (forwardPending s l).1.pendingFrames = s.pendingFrames := by
  intro l s
  obtain ⟨a, b, h⟩ := (forwardPending_spec s l s.lastTimestamp s.lastTime).2
  change (forwardPending s l).1 = _ at h
  rw [h]
  exact ⟨rfl, rfl, rfl, rfl, rfl, rfl, rfl, rfl, rfl⟩

/-- The trace of the replay loop run in a state `t` that `ForwardFrame` cannot
tell apart from `s`. -/
theorem forwardPending_trace (s : Selector) :
    ∀ (l : List (Nat × VideoFrame)) (t : Selector),
      t.listeners = s.listeners → t.ssrc = s.ssrc → t.firstTimestamp = s.firstTimestamp →
      t.offsetTimestamp = s.offsetTimestamp → t.forwarded = s.forwarded →
      (forwardPending t l).2 =
        (l.filter (fun e => decide (e.1 = s.forwarded))).map (entryOf s)
  | [], _, _, _, _, _, _ => rfl
  | (ssrc, f) :: rest, t, h1, h2, h3, h4, h5 => by
    by_cases h : ssrc = s.forwarded
    · have hF := ForwardFrame_fields t f
      have ih := forwardPending_trace s rest (ForwardFrame t f).1
        (hF.2.2.1.trans h1) (hF.1.trans h2) (hF.2.2.2.2.1.trans h3)
        (hF.2.2.2.2.2.1.trans h4) (hF.2.2.2.1.trans h5)
      simp only [forwardPending, h5, h, if_true, forwardLog, ih]
      simp [List.filter_cons, entryOf, ForwardFrame_congr s t f h1 h2 h3 h4]
    · have ih := forwardPending_trace s rest t h1 h2 h3 h4 h5
      simp only [forwardPending, h5, h, if_false, ih]
      simp [List.filter_cons, h]

theorem changeLayer_fields (s : Selector) (prev : Nat) (w : VideoFrame) :
    (changeLayer s prev w).ssrc = s.ssrc ∧
    (changeLayer s prev w).numLayers = s.numLayers ∧
    (changeLayer s prev w).listeners = s.listeners ∧
    (changeLayer s prev w).forwarded = s.forwarded ∧
    (changeLayer s prev w).lastTimestamp = s.lastTimestamp ∧
    (changeLayer s prev w).lastTime = s.lastTime ∧
    (changeLayer s prev w).selectionTime = s.selectionTime ∧
    (changeLayer s prev w).iframes = s.iframes ∧
    (changeLayer s prev w).pendingFrames = s.pendingFrames := by
  unfold changeLayer
  split <;> exact ⟨rfl, rfl, rfl, rfl, rfl, rfl, rfl, rfl, rfl⟩

/-- `Select` finds a winner: the layer changes, the winner is forwarded, the
candidates are dropped and the pending frames of the winning layer are replayed. -/
theorem Select_some (ord : IterOrder) (s : Selector) (h : ¬ loneAlive s) (w : VideoFrame)
    (hsel : (scan s.forwarded (ord s.iframes)).selected = some w) :
    (Select ord s).2 =
        entryOf (changeLayer { s with forwarded := (scan s.forwarded (ord s.iframes)).forwarded }
            s.forwarded w) ((scan s.forwarded (ord s.iframes)).forwarded, w) ::
          (s.pendingFrames.filter
            (fun e => decide (e.1 = (scan s.forwarded (ord s.iframes)).forwarded))).map
            (entryOf (changeLayer { s with forwarded := (scan s.forwarded (ord s.iframes)).forwarded }
              s.forwarded w)) ∧
    (Select ord s).1.ssrc = s.ssrc ∧
    (Select ord s).1.numLayers = s.numLayers ∧
    (Select ord s).1.listeners = s.listeners ∧
    (Select ord s).1.forwarded = (scan s.forwarded (ord s.iframes)).forwarded ∧
    (Select ord s).1.firstTimestamp =
      (changeLayer { s with forwarded := (scan s.forwarded (ord s.iframes)).forwarded }
        s.forwarded w).firstTimestamp ∧
    (Select ord s).1.offsetTimestamp =
      (changeLayer { s with forwarded := (scan s.forwarded (ord s.iframes)).forwarded }
        s.forwarded w).offsetTimestamp ∧
    (Select ord s).1.selectionTime = 0 ∧
    (Select ord s).1.iframes = [] ∧
    (Select ord s).1.pendingFrames = [] := by
  have ha := (loneAlive_iff s).not.mp h
  simp only [Bool.not_eq_true] at ha
  have hst : (if s.iframes.length = 1 then forwardAlive s s.pendingFrames else (s, false, [])) =
      (s, false, []) := by
    by_cases hl : s.iframes.length = 1
    · simp only [hl, if_true] at ha ⊢
      exact forwardAlive_false _ _ ha
    · simp [hl]
  generalize hL : (scan s.forwarded (ord s.iframes)).forwarded = L at *
  have hc := changeLayer_fields { s with forwarded := L } s.forwarded w
  generalize hs3 : changeLayer { s with forwarded := L } s.forwarded w = s3 at *
  have hc1 : s3.ssrc = s.ssrc := hc.1
  have hc2 : s3.numLayers = s.numLayers := hc.2.1
  have hc3 : s3.listeners = s.listeners := hc.2.2.1
  have hc4 : s3.forwarded = L := hc.2.2.2.1
  have hc9 : s3.pendingFrames = s.pendingFrames := hc.2.2.2.2.2.2.2.2
  clear hc
  obtain ⟨hF1, hF2, hF3, hF4, hF5, hF6, _, _, hF9⟩ := ForwardFrame_fields s3 w
  have e : Select ord s =
      ({ (forwardPending { (ForwardFrame s3 w).1 with iframes := [], selectionTime := 0 }
            (ForwardFrame s3 w).1.pendingFrames).1 with pendingFrames := [] },
        [Forwarding.mk s3.forwarded s3.forwarded w (ForwardFrame s3 w).2.2] ++
          (forwardPending { (ForwardFrame s3 w).1 with iframes := [], selectionTime := 0 }
            (ForwardFrame s3 w).1.pendingFrames).2) := by
    unfold Select
    simp only [hst, hsel, Bool.false_eq_true, if_false, hL, hs3, forwardLog, List.nil_append]
  obtain ⟨hP1, hP2, hP3, hP4, hP5, hP6, hP7, hP8, _⟩ :=
    forwardPending_fields (ForwardFrame s3 w).1.pendingFrames
      { (ForwardFrame s3 w).1 with iframes := [], selectionTime := 0 }
  have hT := forwardPending_trace s3 (ForwardFrame s3 w).1.pendingFrames
    { (ForwardFrame s3 w).1 with iframes := [], selectionTime := 0 } hF3 hF1 hF5 hF6 hF4
  rw [e]
  refine ⟨?_, ?_, ?_, ?_, ?_, ?_, ?_, ?_, ?_, ?_⟩
  · dsimp only
    rw [hT, hF9, hc9, hc4]
    simp only [entryOf, hc4, List.singleton_append]
  · exact hP1.trans (hF1.trans hc1)
  · exact hP2.trans (hF2.trans hc2)
  · exact hP3.trans (hF3.trans hc3)
  · exact hP4.trans (hF4.trans hc4)
  · exact hP5.trans hF5
  · exact hP6.trans hF6
  · exact hP7
  · exact hP8
  · rfl

/-- C3 (lone-intra stability): when `Select` runs with exactly one candidate
intra frame and some pending frame belongs to the forwarded layer, the forwarded
layer, `firstTimestamp` and `offsetTimestamp` stay as they are, `ForwardFrame` is
called exactly on the pending frames of the forwarded layer in arrival order
(so the lone candidate is not forwarded), `pendingFrames` ends up empty and
`selectionTime` is 0.  The candidate map is left as it was. -/
theorem Select_lone_intra_keeps_layer (ord : IterOrder) (s : Selector)
    (h1 : s.iframes.length = 1) (h2 : ∃ e ∈ s.pendingFrames, e.1 = s.forwarded) :
    (Select ord s).1.forwarded = s.forwarded ∧
    (Select ord s).1.firstTimestamp = s.firstTimestamp ∧
    (Select ord s).1.offsetTimestamp = s.offsetTimestamp ∧
    (Select ord s).2 =
      (s.pendingFrames.filter (fun e => decide (e.1 = s.forwarded))).map (entryOf s) ∧
    (Select ord s).2.map (fun e => (e.layer, e.frame)) =
      s.pendingFrames.filter (fun e => decide (e.1 = s.forwarded)) ∧
    (∀ e ∈ (Select ord s).2, (e.layer, e.frame) ∈ s.pendingFrames ∧ e.layer = s.forwarded) ∧
    (Select ord s).1.iframes = s.iframes ∧
    (Select ord s).1.pendingFrames = [] ∧
    (Select ord s).1.selectionTime = 0 := by
  obtain ⟨ht, a, b, hs⟩ := Select_lone ord s ⟨h1, h2⟩
  rw [hs, ht]
  refine ⟨rfl, rfl, rfl, rfl, ?_, ?_, rfl, rfl, rfl⟩
  · rw [List.map_map]
    have : ((fun e : Forwarding => (e.layer, e.frame)) ∘ entryOf s) = id := by
      funext e; rfl
    rw [this, List.map_id]
  · intro e he
    rw [List.mem_map] at he
    obtain ⟨p, hp, rfl⟩ := he
    rw [List.mem_filter] at hp
    exact ⟨hp.1, by simpa using hp.2⟩

theorem Select_lone_intra_keeps_layer_witness :
    loneState.iframes.length = 1 ∧
    (Select id loneState).1.forwarded = 2 ∧
    (Select id loneState).2.map (fun e => (e.layer, e.frame)) =
      [(2, deltaFrame 5100 90 10), (2, deltaFrame 5200 100 10)] ∧
    (Select id loneState).1.pendingFrames = [] :=
  have h := Select_lone_intra_keeps_layer id loneState (by decide) ⟨(2, deltaFrame 5100 90 10), by decide, by decide⟩
  ⟨by decide, h.1, h.2.2.2.2.1, h.2.2.2.2.2.2.2.1⟩

theorem validOrder_id : ValidOrder id := fun l => List.Perm.refl l

theorem Reachable_run (ord : IterOrder) (hord : ValidOrder ord) :
    ∀ (frames : List (Nat × VideoFrame)) (s : Selector),
      Reachable s → Reachable (run ord s frames).1
  | [], _, h => h
  | (ssrc, f) :: rest, s, h => by
    simp only [run]
    exact Reachable_run ord hord rest _ (Reachable.frame ord hord ssrc f h)

/-- A change of the forwarded layer in `Select` comes from the candidate scan. -/
theorem switch_from_scan (ord : IterOrder) (s : Selector)
    (hsw : (Select ord s).1.forwarded ≠ s.forwarded) :
    ¬ loneAlive s ∧ ∃ w, (scan s.forwarded (ord s.iframes)).selected = some w := by
  have hl : ¬ loneAlive s := by
    intro hl
    obtain ⟨_, a, b, h⟩ := Select_lone ord s hl
    rw [h] at hsw
    exact hsw rfl
  refine ⟨hl, ?_⟩
  cases hsel : (scan s.forwarded (ord s.iframes)).selected with
  | none =>
    rw [Select_none ord s hl hsel] at hsw
    exact absurd rfl hsw
  | some w => exact ⟨w, rfl⟩

/-- C5 (conjunctive comparator), evaluated on the code: the scan compares the
area of a candidate with `currentDimensions`, which it never assigns, so a
candidate of 5x5 pixels and 20 bytes replaces a running best of 10x10 pixels
and 10 bytes, and the winner (area 25) does not have the largest area among the
candidates that displaced the running best (area 100). -/
theorem scan_displaces_larger_area :
    (scan 0 [(1, wideLight)]).selected = some wideLight ∧
    (scanStep (scan 0 [(1, wideLight)]) (2, narrowHeavy)).selected = some narrowHeavy ∧
    area narrowHeavy = 25 ∧ area wideLight = 100 ∧
    (scan 0 [(1, wideLight), (2, narrowHeavy)]).selected = some narrowHeavy ∧
    (Select id { initial 9 2 0 with iframes := [(1, wideLight), (2, narrowHeavy)] }).1.forwarded
      = 2 := by
  decide

/-- C7 fails as stated: after `repeatFrames` the forwarded layer 1 has a
candidate whose timestamp 100 is not above `lastTimestamp` 100, and the winner
of layer 2 has capture time 2000 above `lastTime` 1000.  The three cases of the
specification give a difference of 1000, hence an offset of 2000; `Select` leaves
the offset at 1000. -/
theorem specDiff_counterexample :
    (run id (initial 9 2 0) repeatFrames).1.forwarded = 1 ∧
    onMediaFrame id (run id (initial 9 2 0) repeatFrames).1 2 (intraFrame 500 2000 10 1 1) =
      Select id repeatState ∧
    (Select id repeatState).1.forwarded = 2 ∧
    repeatState.forwarded = 1 ∧
    repeatState.iframes.lookup 1 = some (intraFrame 100 2000 5 1 1) ∧
    repeatState.lastTimestamp = 100 ∧ repeatState.lastTime = 1000 ∧
    specDiff repeatState 1 (intraFrame 500 2000 10 1 1) = 1000 ∧
    (Select id repeatState).1.offsetTimestamp = 1000 ∧
    (Select id repeatState).1.offsetTimestamp ≠
      repeatState.offsetTimestamp + (repeatState.lastTimestamp - repeatState.firstTimestamp) +
        specDiff repeatState 1 (intraFrame 500 2000 10 1 1) := by
  decide

/-- What a change of the forwarded layer in `Select` does to the continuity
bookkeeping. -/
theorem switch_effect (ord : IterOrder) (s : Selector)
    (hsw : (Select ord s).1.forwarded ≠ s.forwarded) :
    ∃ w, (scan s.forwarded (ord s.iframes)).selected = some w ∧
      ((Select ord s).1.forwarded, w) ∈ ord s.iframes ∧
      (Select ord s).1.firstTimestamp = w.ts ∧
      (Select ord s).1.offsetTimestamp =
        add64 s.offsetTimestamp
          (add64 (sub64 s.lastTimestamp s.firstTimestamp) (switchDiff s s.forwarded w)) := by
  obtain ⟨hl, w, hw⟩ := switch_from_scan ord s hsw
  obtain ⟨_, _, _, _, hf, hfirst, hoff, _⟩ := Select_some ord s hl w hw
  have hmem := (scan_some _ _ w hw).1
  have hne : s.forwarded ≠ (scan s.forwarded (ord s.iframes)).forwarded := by
    rw [← hf]; exact fun h => hsw h.symm
  have hfirst2 : (Select ord s).1.firstTimestamp = w.ts := by
    rw [hfirst]; unfold changeLayer; simp only [hne, ne_eq, not_false_eq_true, if_true]
  have hoff2 : (Select ord s).1.offsetTimestamp = add64 s.offsetTimestamp
      (add64 (sub64 s.lastTimestamp s.firstTimestamp) (switchDiff s s.forwarded w)) := by
    rw [hoff]; unfold changeLayer; simp only [hne, ne_eq, not_false_eq_true, if_true]
    rfl
  exact ⟨w, hw, hf ▸ hmem, hfirst2, hoff2⟩

/-- C7 as amended: when `Select` changes the forwarded layer, with winner `w`,
`firstTimestamp` becomes the timestamp of `w` and `offsetTimestamp` becomes
`offsetTimestamp + (lastTimestamp - firstTimestamp) + diff` in `uint64_t`
arithmetic (the exact sum when nothing wraps), where `diff` is: the candidate
timestamp of the previous layer minus `lastTimestamp` when that layer has a
candidate above `lastTimestamp`; zero when it has a candidate that is not
above; and, only when it has no candidate, the capture-time gap of `w` times the
clock rate divided by 1000 when the capture time is above `lastTime`, else
zero. -/
theorem Select_switch_offset (ord : IterOrder) (s : Selector)
    (hsw : (Select ord s).1.forwarded ≠ s.forwarded) :
    ∃ w, (scan s.forwarded (ord s.iframes)).selected = some w ∧
      ((Select ord s).1.forwarded, w) ∈ ord s.iframes ∧
      (Select ord s).1.firstTimestamp = w.ts ∧
      (Select ord s).1.offsetTimestamp =
        add64 s.offsetTimestamp
          (add64 (sub64 s.lastTimestamp s.firstTimestamp) (switchDiff s s.forwarded w)) ∧
      (s.firstTimestamp ≤ s.lastTimestamp → s.lastTimestamp < 2 ^ 64 →
        s.offsetTimestamp + (s.lastTimestamp - s.firstTimestamp) + switchDiff s s.forwarded w
          < 2 ^ 64 →
        (Select ord s).1.offsetTimestamp =
          s.offsetTimestamp + (s.lastTimestamp - s.firstTimestamp) +
            switchDiff s s.forwarded w) ∧
      (∀ p, s.iframes.lookup s.forwarded = some p → s.lastTimestamp < p.ts →
        switchDiff s s.forwarded w = p.ts - s.lastTimestamp) ∧
      (∀ p, s.iframes.lookup s.forwarded = some p → p.ts ≤ s.lastTimestamp →
        switchDiff s s.forwarded w = 0) ∧
      (s.iframes.lookup s.forwarded = none → s.lastTime < w.time →
        switchDiff s s.forwarded w = (w.time - s.lastTime) * w.clockRate % 2 ^ 64 / 1000) ∧
      (s.iframes.lookup s.forwarded = none → w.time ≤ s.lastTime →
        switchDiff s s.forwarded w = 0) := by
  obtain ⟨w, hw, hmem, hfirst2, hoff2⟩ := switch_effect ord s hsw
  refine ⟨w, hw, hmem, hfirst2, hoff2, ?_, ?_, ?_, ?_, ?_⟩
  · intro h1 h2 h3
    rw [hoff2]
    have e1 : sub64 s.lastTimestamp s.firstTimestamp = s.lastTimestamp - s.firstTimestamp := by
      unfold sub64
      have hf2 : s.firstTimestamp < 2 ^ 64 := Nat.lt_of_le_of_lt h1 h2
      rw [Nat.mod_eq_of_lt h2, Nat.mod_eq_of_lt hf2]
      have : s.lastTimestamp + (2 ^ 64 - s.firstTimestamp) =
          (s.lastTimestamp - s.firstTimestamp) + 2 ^ 64 := by omega
      rw [this, Nat.add_mod_right]
      exact Nat.mod_eq_of_lt (by omega)
    rw [e1]
    unfold add64
    rw [Nat.mod_eq_of_lt (a := s.lastTimestamp - s.firstTimestamp + switchDiff s s.forwarded w)
      (by omega)]
    rw [← Nat.add_assoc]
    exact Nat.mod_eq_of_lt h3
  · intro p hp hlt
    unfold switchDiff
    rw [hp]
    simp [hlt]
  · intro p hp hle
    unfold switchDiff
    rw [hp]
    simp [Nat.not_lt.mpr hle]
  · intro hn hlt
    unfold switchDiff
    rw [hn]
    simp [hlt, mul64]
  · intro hn hle
    unfold switchDiff
    rw [hn]
    simp [Nat.not_lt.mpr hle]

theorem Select_switch_offset_witness :
    (Select id repeatState).1.forwarded ≠ repeatState.forwarded ∧
    ∃ w, (scan repeatState.forwarded (id repeatState.iframes)).selected = some w ∧
      (Select id repeatState).1.firstTimestamp = w.ts :=
  ⟨by decide,
    (Select_switch_offset id repeatState (by decide)).imp fun _ h => ⟨h.1, h.2.2.1⟩⟩

/-- C8 fails as stated: after `scenarioFrames` the selector forwards layer 2
with `lastTimestamp` 5000, `firstTimestamp` 4000 and `offsetTimestamp` 100; an
intra frame of layer 1 with timestamp 5300 arrives, layer 2 has no candidate and
the capture time has not advanced, so `Select` switches to layer 1 with an
offset of 1100, not 1400. -/
theorem switch_scenario_counterexample :
    (run id (initial 9 1 0) scenarioFrames).1.forwarded = 2 ∧
    onMediaFrame id (run id (initial 9 1 0) scenarioFrames).1 1 (intraFrame 5300 200 10 1 1) =
      Select id scenarioState ∧
    scenarioState.forwarded = 2 ∧ scenarioState.lastTimestamp = 5000 ∧
    scenarioState.firstTimestamp = 4000 ∧ scenarioState.offsetTimestamp = 100 ∧
    scenarioState.iframes = [(1, intraFrame 5300 200 10 1 1)] ∧
    (intraFrame 5300 200 10 1 1).ts = 5300 ∧
    (Select id scenarioState).1.forwarded = 1 ∧
    (Select id scenarioState).1.firstTimestamp = 5300 ∧
    (Select id scenarioState).1.offsetTimestamp = 1100 ∧
    (Select id scenarioState).1.offsetTimestamp ≠ 1400 := by
  decide

/-- C8 as amended: a `Select` step that starts with forwarded layer 2,
`lastTimestamp` 5000, `firstTimestamp` 4000 and `offsetTimestamp` 100, in which
the previously forwarded layer 2 has a candidate with timestamp 5300, and that
switches to layer 1 whose candidate has timestamp 5300, ends with
`offsetTimestamp` 1400 (a difference of 300) and `firstTimestamp` 5300. -/
theorem switch_scenario (ord : IterOrder) (s : Selector) (p : VideoFrame)
    (hf : s.forwarded = 2) (hl : s.lastTimestamp = 5000) (h1 : s.firstTimestamp = 4000)
    (ho : s.offsetTimestamp = 100)
    (hp : s.iframes.lookup 2 = some p) (hpt : p.ts = 5300)
    (hw : ∀ w, (1, w) ∈ ord s.iframes → w.ts = 5300)
    (hsw : (Select ord s).1.forwarded = 1) :
    (Select ord s).1.offsetTimestamp = 100 + (5000 - 4000) + 300 ∧
    (Select ord s).1.offsetTimestamp = 1400 ∧
    (Select ord s).1.firstTimestamp = 5300 := by
  have hne : (Select ord s).1.forwarded ≠ s.forwarded := by rw [hsw, hf]; decide
  obtain ⟨w, _, hmem, hfirst, hoff⟩ := switch_effect ord s hne
  rw [hsw] at hmem
  rw [hf] at hoff
  have hd2 : switchDiff s 2 w = p.ts - s.lastTimestamp := by
    unfold switchDiff
    rw [hp]
    simp [hl, hpt]
  have e : (Select ord s).1.offsetTimestamp = 1400 := by
    rw [hoff, hd2, hl, h1, ho, hpt]
    decide
  exact ⟨e, e, by rw [hfirst, hw w hmem]⟩

theorem switch_scenario_witness :
    scenarioBoth.forwarded = 2 ∧ (Select id scenarioBoth).1.forwarded = 1 ∧
    (Select id scenarioBoth).1.offsetTimestamp = 1400 ∧
    (Select id scenarioBoth).1.firstTimestamp = 5300 :=
  have h := switch_scenario id scenarioBoth (intraFrame 5300 200 10 1 1)
    (by decide) (by decide) (by decide) (by decide) (by decide) (by decide)
    (by
      intro w hw
      have h2 : w = intraFrame 5300 200 20 1 1 := by
        simpa [scenarioBoth, scenarioState] using hw
      rw [h2]
      rfl)
    (by decide)
  ⟨by decide, by decide, h.2.1, h.2.2⟩

theorem run_cons (ord : IterOrder) (s : Selector) (ssrc : Nat) (f : VideoFrame)
    (rest : List (Nat × VideoFrame)) :
    run ord s ((ssrc, f) :: rest) =
      ((run ord (onMediaFrame ord s ssrc f).1 rest).1,
        (onMediaFrame ord s ssrc f).2 ++ (run ord (onMediaFrame ord s ssrc f).1 rest).2) := rfl

/-- The first round of `regressFrames` and `staleFrames` from an initial state
whose forwarded layer is neither layer 1 nor layer 2. -/
theorem first_round (noLayer : Nat) (h1 : noLayer ≠ 1) (h2 : noLayer ≠ 2) :
    onMediaFrame id (AddMediaListener (initial 9 2 noLayer) 7) 1 (intraFrame 100 1000 10 1 1)
      = (firstRecorded noLayer, []) ∧
    onMediaFrame id (firstRecorded noLayer) 2 (intraFrame 100 1000 5 1 1)
      = (afterFirstRound, [Forwarding.mk 1 1 (intraFrame 100 1000 10 1 1)
        [SinkCall.mk 7 9 (intraFrame 1000 1000 10 1 1)]]) := by
  have h1b : (noLayer == 1) = false := by simpa using h1
  have h2b : (noLayer == 2) = false := by simpa using h2
  have h1c : ¬ noLayer = 1 := h1
  constructor
  · simp [onMediaFrame, recordIntra, initial, AddMediaListener, intraFrame, add64, FrameWaitingTime,
      firstRecorded]
  · simp [onMediaFrame, recordIntra, initial, intraFrame, add64, FrameWaitingTime, Select,
      scan, scanStep, mul32, changeLayer, switchDiff, List.lookup, h1b, h2b, h1c, forwardLog,
      ForwardFrame, SetTimestamp, forwardPending, afterFirstRound, sub64, mul64, firstRecorded]

/-- C4 (round-active invariant), evaluated on the code: after `staleFrames`,
from the initial state with any value for no forwarded layer, the selector has
taken the first exit of `Select`, which clears `pendingFrames` twice and never
the candidate map; the reachable state has `selectionTime` 0 and a candidate of
layer 2 still in the map. -/
theorem lone_exit_keeps_candidate (noLayer : Nat) :
    Reachable (run id (AddMediaListener (initial 9 2 noLayer) 7) staleFrames).1 ∧
    (run id (AddMediaListener (initial 9 2 noLayer) 7) staleFrames).1.selectionTime = 0 ∧
    (run id (AddMediaListener (initial 9 2 noLayer) 7) staleFrames).1.iframes =
      [(2, intraFrame 200 1100 5 1 1)] ∧
    (run id (AddMediaListener (initial 9 2 noLayer) 7) staleFrames).1.iframes ≠ [] ∧
    (run id (AddMediaListener (initial 9 2 noLayer) 7) staleFrames).1.pendingFrames = [] ∧
    (run id (AddMediaListener (initial 9 2 noLayer) 7) staleFrames).1.forwarded = 1 := by
  refine ⟨Reachable_run id validOrder_id _ _
    (Reachable.addListener 7 (Reachable.init 9 2 noLayer)), ?_⟩
  by_cases h1 : noLayer = 1
  · subst h1; decide
  · by_cases h2 : noLayer = 2
    · subst h2; decide
    · obtain ⟨e1, e2⟩ := first_round noLayer h1 h2
      unfold staleFrames
      rw [run_cons, e1]
      dsimp only
      rw [run_cons, e2]
      dsimp only
      decide

/-- C1 (output continuity), evaluated on the code: `regressFrames` has
non-decreasing timestamps on each layer and nothing wraps, yet from the initial
state with any value for no forwarded layer the timestamps that the listener
receives are not non-decreasing; with 0 for no layer they are 1000, 1200, 1100.
The intra frame of the forwarded layer (timestamp 300) is forwarded before the
pending delta frame of the same layer that arrived earlier (timestamp 200),
which passes the guard because `firstTimestamp` is still 100. -/
theorem replay_regresses (noLayer : Nat) :
    layerMonotone regressFrames ∧
    ¬ (sentTimestamps (run id (AddMediaListener (initial 9 2 noLayer) 7) regressFrames).2).Pairwise
      (fun a b => a ≤ b) ∧
    sentTimestamps (run id (AddMediaListener (initial 9 2 0) 7) regressFrames).2 =
      [1000, 1200, 1100] ∧
    (run id (AddMediaListener (initial 9 2 0) 7) regressFrames).2.map
      (fun e => (e.layer, e.frame.ts)) = [(1, 100), (1, 300), (1, 200)] := by
  refine ⟨?_, ?_, ?_, ?_⟩
  · unfold layerMonotone; decide
  · by_cases h1 : noLayer = 1
    · subst h1; decide
    · by_cases h2 : noLayer = 2
      · subst h2; decide
      · obtain ⟨e1, e2⟩ := first_round noLayer h1 h2
        have e : sentTimestamps
            (run id (AddMediaListener (initial 9 2 noLayer) 7) regressFrames).2 =
              [1000, 1200, 1100] := by
          unfold regressFrames
          rw [run_cons, e1]
          dsimp only
          rw [run_cons, e2]
          dsimp only
          decide
        rw [e]
        decide
  · decide
  · decide

theorem perm_pair {α : Type} (x y : α) (l : List α) (h : l.Perm [x, y]) :
    l = [x, y] ∨ l = [y, x] := by
  have hlen := h.length_eq
  match l, hlen with
  | [p, q], _ =>
    have hp : p ∈ [x, y] := h.subset (by simp)
    have hq : q ∈ [x, y] := h.subset (by simp)
    have hx : x ∈ [p, q] := h.symm.subset (by simp)
    have hy : y ∈ [p, q] := h.symm.subset (by simp)
    simp only [List.mem_cons, List.mem_singleton, List.not_mem_nil, or_false] at hp hq hx hy
    rcases hp with rfl | rfl
    · rcases hq with rfl | rfl
      · rcases hy with rfl | rfl <;> exact Or.inl rfl
      · exact Or.inl rfl
    · rcases hq with rfl | rfl
      · exact Or.inr rfl
      · rcases hx with rfl | rfl <;> exact Or.inl rfl

/-- The scan of a larger-but-lighter candidate `b` and a heavier candidate `a`, in either order. -/
theorem scan_pair (fwd la lb : Nat) (a b : VideoFrame)
    (h1 : area a < area b) (h2 : b.length < a.length) (h3 : 0 < b.length) (h4 : 0 < area a)
    (l : List (Nat × VideoFrame)) (hl : l.Perm [(la, a), (lb, b)]) :
    (scan fwd l).selected = some a ∧ (scan fwd l).forwarded = la := by
  have hb : 0 < area b := Nat.lt_trans h4 h1
  have ha : 0 < a.length := Nat.lt_trans h3 h2
  have hn : ¬ a.length < b.length := Nat.not_lt.mpr (Nat.le_of_lt h2)
  unfold area at h4 hb
  rcases perm_pair _ _ l hl with rfl | rfl
  · simp [scan, scanStep, h4, hb, ha, hn]
  · simp [scan, scanStep, h4, hb, h3, h2]

theorem not_loneAlive_of_length (s : Selector) (h : s.iframes.length ≠ 1) : ¬ loneAlive s :=
  fun hl => h hl.1

/-- C6 (larger-but-lighter candidate loses): for two intra video frames `a` and
`b` of different layers with `area a < area b`, `length a > length b > 0` and
`area a > 0`, `Select` run on a candidate map that holds exactly these two
makes the layer of `a` the forwarded layer, whatever the iteration order of
the map; and from any state with an empty candidate map and `numLayers = 2`
(the initial state among them) the two frames, arriving in either order with
capture times that do not wrap the waiting window, leave the layer of `a`
forwarded. -/
theorem larger_but_lighter_loses (ord : IterOrder) (hord : ValidOrder ord) (la lb : Nat)
    (a b : VideoFrame) (hl : la ≠ lb)
    (hta : a.type = MediaType.Video) (htb : b.type = MediaType.Video)
    (hia : a.intra = true) (hib : b.intra = true)
    (h1 : area a < area b) (h2 : b.length < a.length) (h3 : 0 < b.length) (h4 : 0 < area a) :
    (∀ s : Selector, s.iframes.Perm [(la, a), (lb, b)] → (Select ord s).1.forwarded = la) ∧
    (∀ s : Selector, s.iframes = [] → s.numLayers = 2 →
      a.time + FrameWaitingTime < 2 ^ 64 → b.time + FrameWaitingTime < 2 ^ 64 →
      (run ord s [(la, a), (lb, b)]).1.forwarded = la ∧
      (run ord s [(lb, b), (la, a)]).1.forwarded = la) := by
  have key : ∀ s : Selector, s.iframes.Perm [(la, a), (lb, b)] →
      (Select ord s).1.forwarded = la := by
    intro s hs
    have hlen : s.iframes.length ≠ 1 := by rw [hs.length_eq]; simp
    have hsc := scan_pair s.forwarded la lb a b h1 h2 h3 h4 (ord s.iframes) ((hord _).trans hs)
    obtain ⟨_, _, _, _, hf, _⟩ := Select_some ord s (not_loneAlive_of_length s hlen) a hsc.1
    rw [hf, hsc.2]
  refine ⟨key, ?_⟩
  intro s hs hn hat hbt
  have first : ∀ (l : Nat) (f : VideoFrame), f.type = MediaType.Video → f.intra = true →
      f.time + FrameWaitingTime < 2 ^ 64 →
      onMediaFrame ord s l f = ({ s with selectionTime := f.time, iframes := [(l, f)] }, []) := by
    intro l f hft hfi hftime
    have e : recordIntra s l f = { s with selectionTime := f.time, iframes := [(l, f)] } := by
      unfold recordIntra
      simp [hs]
    unfold onMediaFrame
    rw [e]
    simp only [hft, hfi, ne_eq, not_true_eq_false, if_false, if_true, List.length_singleton, hn]
    have : ¬ f.time > add64 f.time FrameWaitingTime := by
      unfold add64
      rw [Nat.mod_eq_of_lt hftime]
      unfold FrameWaitingTime
      omega
    simp [this]
  have second : ∀ (l1 l2 : Nat) (f1 f2 : VideoFrame), l1 ≠ l2 → f2.type = MediaType.Video →
      f2.intra = true →
      onMediaFrame ord { s with selectionTime := f1.time, iframes := [(l1, f1)] } l2 f2 =
        Select ord { s with selectionTime := f1.time, iframes := [(l1, f1), (l2, f2)] } := by
    intro l1 l2 f1 f2 hne hft hfi
    have e : recordIntra { s with selectionTime := f1.time, iframes := [(l1, f1)] } l2 f2 =
        { s with selectionTime := f1.time, iframes := [(l1, f1), (l2, f2)] } := by
      unfold recordIntra
      have : (l2 == l1) = false := by simpa using fun h => hne h.symm
      simp [List.lookup, this]
    unfold onMediaFrame
    rw [e]
    simp [hft, hfi, hn]
  constructor
  · simp only [run]
    rw [first la a hta hia hat, second la lb a b hl htb hib]
    exact key _ (List.Perm.refl _)
  · simp only [run]
    rw [first lb b htb hib hbt, second lb la b a hl.symm hta hia]
    exact key _ (List.Perm.swap _ _ _)

theorem larger_but_lighter_loses_witness :
    area (intraFrame 1000 10 50000 640 480) < area (intraFrame 2000 10 40000 1280 720) ∧
    (intraFrame 2000 10 40000 1280 720).length < (intraFrame 1000 10 50000 640 480).length ∧
    (run id (initial 9 2 0) [(1, intraFrame 1000 10 50000 640 480),
      (2, intraFrame 2000 10 40000 1280 720)]).1.forwarded = 1 ∧
    (run id (initial 9 2 0) [(2, intraFrame 2000 10 40000 1280 720),
      (1, intraFrame 1000 10 50000 640 480)]).1.forwarded = 1 :=
  have h := (larger_but_lighter_loses id validOrder_id 1 2 (intraFrame 1000 10 50000 640 480)
    (intraFrame 2000 10 40000 1280 720) (by decide) (by decide) (by decide) (by decide)
    (by decide) (by decide) (by decide) (by decide) (by decide)).2 (initial 9 2 0) rfl rfl
    (by decide) (by decide)
  ⟨by decide, by decide, h.1, h.2⟩

theorem Select_iframes (ord : IterOrder) (s : Selector) :
    (Select ord s).1.iframes = s.iframes ∨ (Select ord s).1.iframes = [] := by
  by_cases hl : loneAlive s
  · obtain ⟨_, a, b, h⟩ := Select_lone ord s hl
    rw [h]; exact Or.inl rfl
  · cases hsel : (scan s.forwarded (ord s.iframes)).selected with
    | none => rw [Select_none ord s hl hsel]; exact Or.inl rfl
    | some w =>
      obtain ⟨_, _, _, _, _, _, _, _, h, _⟩ := Select_some ord s hl w hsel
      exact Or.inr h

theorem recordIntra_fields (s : Selector) (ssrc : Nat) (f : VideoFrame) :
    (recordIntra s ssrc f).forwarded = s.forwarded ∧
    (recordIntra s ssrc f).listeners = s.listeners ∧
    (recordIntra s ssrc f).ssrc = s.ssrc ∧
    ((recordIntra s ssrc f).iframes = s.iframes ++ [(ssrc, f)] ∧
        (recordIntra s ssrc f).pendingFrames = s.pendingFrames ∨
      (recordIntra s ssrc f).iframes = s.iframes ∧
        (recordIntra s ssrc f).pendingFrames = s.pendingFrames ++ [(ssrc, f)]) := by
  unfold recordIntra
  dsimp only
  split <;> split <;>
    first
    | exact ⟨rfl, rfl, rfl, Or.inl ⟨rfl, rfl⟩⟩
    | exact ⟨rfl, rfl, rfl, Or.inr ⟨rfl, rfl⟩⟩

/-- The outcomes of `onMediaFrame`. -/
theorem onMediaFrame_cases (ord : IterOrder) (s : Selector) (ssrc : Nat) (f : VideoFrame) :
    onMediaFrame ord s ssrc f = (s, []) ∨
    (f.intra = true ∧ (onMediaFrame ord s ssrc f = (recordIntra s ssrc f, []) ∨
      onMediaFrame ord s ssrc f = Select ord (recordIntra s ssrc f))) ∨
    (f.intra = false ∧ (onMediaFrame ord s ssrc f = (bufferPending s ssrc f, []) ∨
      onMediaFrame ord s ssrc f = Select ord (bufferPending s ssrc f))) ∨
    (f.intra = false ∧ ssrc = s.forwarded ∧ onMediaFrame ord s ssrc f = forwardLog ssrc s f) := by
  generalize hr : onMediaFrame ord s ssrc f = r
  unfold onMediaFrame at hr
  by_cases ht : f.type ≠ MediaType.Video
  · rw [if_pos ht] at hr
    exact Or.inl hr.symm
  · rw [if_neg ht] at hr
    dsimp only at hr
    by_cases hi : f.intra = true
    · rw [if_pos hi] at hr
      refine Or.inr (Or.inl ⟨hi, ?_⟩)
      split at hr
      · exact Or.inr hr.symm
      · exact Or.inl hr.symm
    · rw [if_neg hi] at hr
      have hi2 : f.intra = false := by simpa using hi
      by_cases hsel : s.selectionTime ≠ 0
      · rw [if_pos hsel] at hr
        refine Or.inr (Or.inr (Or.inl ⟨hi2, ?_⟩))
        split at hr
        · exact Or.inr hr.symm
        · exact Or.inl hr.symm
      · rw [if_neg hsel] at hr
        by_cases hf : ssrc = s.forwarded
        · rw [if_pos hf] at hr
          exact Or.inr (Or.inr (Or.inr ⟨hi2, hf, hr.symm⟩))
        · rw [if_neg hf] at hr
          exact Or.inl hr.symm

/-- Every candidate in the map of a reachable state is an intra frame. -/
theorem Reachable_intra (s : Selector) (h : Reachable s) : ∀ e ∈ s.iframes, e.2.intra = true := by
  induction h with
  | init ssrc numLayers noLayer => intro e he; simp [initial] at he
  | addListener l _ ih =>
    unfold AddMediaListener
    split
    · exact ih
    · exact ih
  | removeListener l _ ih => exact ih
  | setNumLayers n _ ih => exact ih
  | @frame s0 ord hord ssrc f _ ih =>
    have hrec : ∀ e ∈ (recordIntra s0 ssrc f).iframes, f.intra = true → e.2.intra = true := by
      intro e he hf
      rcases (recordIntra_fields s0 ssrc f).2.2.2 with ⟨h1, _⟩ | ⟨h1, _⟩
      · rw [h1] at he
        rcases List.mem_append.mp he with h2 | h2
        · exact ih e h2
        · simp only [List.mem_singleton] at h2
          rw [h2]; exact hf
      · rw [h1] at he; exact ih e he
    have hsel : ∀ t : Selector, (∀ e ∈ t.iframes, e.2.intra = true) →
        ∀ e ∈ (Select ord t).1.iframes, e.2.intra = true := by
      intro t ht e he
      rcases Select_iframes ord t with h1 | h1
      · rw [h1] at he; exact ht e he
      · rw [h1] at he; simp at he
    rcases onMediaFrame_cases ord s0 ssrc f with h1 | ⟨hi, h1 | h1⟩ | ⟨_, h1 | h1⟩ | ⟨_, _, h1⟩
    · rw [h1]; exact ih
    · rw [h1]; exact fun e he => hrec e he hi
    · rw [h1]; exact hsel _ (fun e he => hrec e he hi)
    · rw [h1]; exact ih
    · rw [h1]; exact hsel _ ih
    · rw [h1]
      intro e he
      have : (forwardLog ssrc s0 f).1.iframes = s0.iframes := (ForwardFrame_fields s0 f).2.2.2.2.2.2.2.1
      rw [this] at he
      exact ih e he
  | @select s0 ord hord _ ih =>
    intro e he
    rcases Select_iframes ord s0 with h1 | h1
    · rw [h1] at he; exact ih e he
    · rw [h1] at he; simp at he
  | @stop s0 ord hord _ ih =>
    intro e he
    have he2 : e ∈ (Select ord s0).1.iframes := he
    rcases Select_iframes ord s0 with h1 | h1
    · rw [h1] at he2; exact ih e he2
    · rw [h1] at he2; simp at he2

theorem add64_idem (a b : Nat) : add64 0 (add64 a b) = add64 a b := by
  unfold add64
  simp

/-- The forwarding discipline of `Select`. -/
theorem Select_stepOk (ord : IterOrder) (hord : ValidOrder ord) (s : Selector)
    (hint : ∀ e ∈ s.iframes, e.2.intra = true) :
    StepOk s (s.iframes ++ s.pendingFrames) s.iframes (Select ord s) := by
  by_cases hl : loneAlive s
  · obtain ⟨ht, a, b, h⟩ := Select_lone ord s hl
    constructor
    · intro e he
      rw [ht] at he
      rw [h]
      obtain ⟨p, hp, rfl⟩ := List.mem_map.mp he
      rw [List.mem_filter] at hp
      have hp2 : p.1 = s.forwarded := by simpa using hp.2
      exact ⟨hp2, rfl, List.mem_append_right _ hp.1⟩
    · intro hne
      rw [h] at hne
      exact absurd rfl hne
  · cases hsel : (scan s.forwarded (ord s.iframes)).selected with
    | none =>
      rw [Select_none ord s hl hsel]
      exact ⟨fun e he => by simp at he, fun hne => absurd rfl hne⟩
    | some w =>
      obtain ⟨ht, h1, _, h3, hf, hfirst, hoff, _⟩ := Select_some ord s hl w hsel
      have hmem : ((scan s.forwarded (ord s.iframes)).forwarded, w) ∈ s.iframes :=
        (hord s.iframes).subset (scan_some _ _ w hsel).1
      have hc := changeLayer_fields
        { s with forwarded := (scan s.forwarded (ord s.iframes)).forwarded } s.forwarded w
      generalize hL : (scan s.forwarded (ord s.iframes)).forwarded = L at *
      generalize hs3 : changeLayer { s with forwarded := L } s.forwarded w = s3 at *
      have hc4 : s3.forwarded = L := hc.2.2.2.1
      constructor
      · intro e he
        rw [ht] at he
        rw [hf]
        rcases List.mem_cons.mp he with rfl | he
        · exact ⟨hc4.symm, hc4, List.mem_append_left _ hmem⟩
        · obtain ⟨p, hp, rfl⟩ := List.mem_map.mp he
          rw [List.mem_filter] at hp
          have hp2 : p.1 = L := by simpa using hp.2
          exact ⟨hp2.trans hc4.symm, hc4, List.mem_append_right _ hp.1⟩
      · intro hne
        rw [hf] at hne
        have hne2 : s.forwarded ≠ L := fun h => hne h.symm
        have e3 : s3 =
            { s with
              forwarded := L
              offsetTimestamp := add64 s.offsetTimestamp
                (add64 (sub64 s.lastTimestamp s.firstTimestamp) (switchDiff s s.forwarded w))
              firstTimestamp := w.ts } := by
          rw [← hs3]
          unfold changeLayer
          simp only [hne2, ne_eq, not_false_eq_true, if_true]
          rfl
        refine ⟨w, (s.pendingFrames.filter (fun e => decide (e.1 = L))).map (entryOf s3), ?_,
          by rw [hf]; exact hmem, hint _ hmem, ?_⟩
        · rw [ht, hf, hoff]
          congr 1
          rw [e3]
          simp only [entryOf, ForwardFrame, Nat.lt_irrefl, if_false, Nat.sub_self, add64_idem]
        · rw [hfirst, e3]

theorem StepOk_transfer (s t : Selector) (buffers buffers2 candidates candidates2 :
    List (Nat × VideoFrame)) (r : Selector × List Forwarding)
    (hf : t.forwarded = s.forwarded) (hl : t.listeners = s.listeners) (hs : t.ssrc = s.ssrc)
    (hb : ∀ e ∈ buffers2, e ∈ buffers) (hc : ∀ e ∈ candidates2, e ∈ candidates)
    (h : StepOk t buffers2 candidates2 r) : StepOk s buffers candidates r := by
  obtain ⟨h1, h2⟩ := h
  constructor
  · intro e he
    obtain ⟨a, b, c⟩ := h1 e he
    exact ⟨a, b, hb _ c⟩
  · intro hne
    rw [← hf] at hne
    obtain ⟨w, rest, e1, e2, e3, e4⟩ := h2 hne
    rw [hl, hs] at e1
    exact ⟨w, rest, e1, hc _ e2, e3, e4⟩

/-- C2 (switching happens only at key frames): in every reachable state, for
`Select`, `Stop` and `onMediaFrame` alike, every call of `ForwardFrame` passes a
frame that was received or buffered under the layer that is forwarded when the
call is made (which is the layer the step leaves forwarded, `ForwardFrame`
itself never changing it); and when the step changes the forwarded layer, the
first call passes the candidate intra frame of the new layer, which passes the
guard (`firstTimestamp` is its timestamp) and reaches every listener, with the
new offset stored as its timestamp. -/
theorem forwards_only_forwarded_layer (ord : IterOrder) (hord : ValidOrder ord) (s : Selector)
    (hs : Reachable s) :
    (∀ f : VideoFrame, (ForwardFrame s f).1.forwarded = s.forwarded) ∧
    StepOk s (s.iframes ++ s.pendingFrames) s.iframes (Select ord s) ∧
    StepOk s (s.iframes ++ s.pendingFrames) s.iframes (Stop ord s) ∧
    ∀ (ssrc : Nat) (f : VideoFrame),
      StepOk s (s.iframes ++ s.pendingFrames ++ [(ssrc, f)])
        (if f.intra then (recordIntra s ssrc f).iframes else s.iframes)
        (onMediaFrame ord s ssrc f) := by
  have hint := Reachable_intra s hs
  have hsel := Select_stepOk ord hord s hint
  refine ⟨ForwardFrame_forwarded s, hsel, hsel, ?_⟩
  intro ssrc f
  have hnone : ∀ (t : Selector) (b c : List (Nat × VideoFrame)), t.forwarded = s.forwarded →
      StepOk s b c (t, []) := by
    intro t b c ht
    exact ⟨fun e he => by simp at he, fun hne => absurd ht hne⟩
  rcases onMediaFrame_cases ord s ssrc f with h1 | ⟨hi, h1 | h1⟩ | ⟨hi, h1 | h1⟩ | ⟨hi, hfw, h1⟩
  · rw [h1]; exact hnone s _ _ rfl
  · rw [h1]; exact hnone _ _ _ (recordIntra_fields s ssrc f).1
  · rw [h1, hi]
    simp only [if_true]
    obtain ⟨r1, r2, r3, r4⟩ := recordIntra_fields s ssrc f
    have hint2 : ∀ e ∈ (recordIntra s ssrc f).iframes, e.2.intra = true := by
      intro e he
      rcases r4 with ⟨h4, _⟩ | ⟨h4, _⟩
      · rw [h4] at he
        rcases List.mem_append.mp he with h5 | h5
        · exact hint e h5
        · simp only [List.mem_singleton] at h5
          rw [h5]; exact hi
      · rw [h4] at he; exact hint e he
    refine StepOk_transfer s (recordIntra s ssrc f) _ _ _ _ _ r1 r2 r3 ?_ (fun e he => he)
      (Select_stepOk ord hord _ hint2)
    intro e he
    rcases r4 with ⟨h4, h5⟩ | ⟨h4, h5⟩
    · rw [h4, h5] at he
      simp only [List.mem_append, List.mem_singleton] at he ⊢
      tauto
    · rw [h4, h5] at he
      simp only [List.mem_append, List.mem_singleton] at he ⊢
      tauto
  · rw [h1]; exact hnone _ _ _ rfl
  · rw [h1, hi]
    simp only [Bool.false_eq_true, if_false]
    refine StepOk_transfer s (bufferPending s ssrc f) _ _ _ _ _ rfl rfl rfl ?_ (fun e he => he)
      (Select_stepOk ord hord (bufferPending s ssrc f) hint)
    intro e he
    simp only [bufferPending, List.mem_append, List.mem_singleton] at he ⊢
    tauto
  · rw [h1]
    have hfwd : (forwardLog ssrc s f).1.forwarded = s.forwarded := (ForwardFrame_fields s f).2.2.2.1
    constructor
    · intro e he
      simp only [forwardLog, List.mem_singleton] at he
      subst he
      exact ⟨hfw, hfwd.symm, by simp⟩
    · intro hne
      exact absurd hfwd hne

theorem forwards_only_forwarded_layer_witness :
    ValidOrder id ∧
    Reachable (run id (AddMediaListener (initial 9 2 0) 7) [(1, intraFrame 1000 10 50000 640 480)]).1 ∧
    (onMediaFrame id
      (run id (AddMediaListener (initial 9 2 0) 7) [(1, intraFrame 1000 10 50000 640 480)]).1
      2 (intraFrame 2000 10 40000 1280 720)).2 =
      [Forwarding.mk 1 1 (intraFrame 1000 10 50000 640 480)
        [SinkCall.mk 7 9 (intraFrame 10 10 50000 640 480)]] ∧
    StepOk (run id (AddMediaListener (initial 9 2 0) 7) [(1, intraFrame 1000 10 50000 640 480)]).1
      [(1, intraFrame 1000 10 50000 640 480), (2, intraFrame 2000 10 40000 1280 720)]
      [(1, intraFrame 1000 10 50000 640 480), (2, intraFrame 2000 10 40000 1280 720)]
      (onMediaFrame id
        (run id (AddMediaListener (initial 9 2 0) 7) [(1, intraFrame 1000 10 50000 640 480)]).1
        2 (intraFrame 2000 10 40000 1280 720)) :=
  ⟨validOrder_id,
    Reachable_run id validOrder_id _ _ (Reachable.addListener 7 (Reachable.init 9 2 0)),
    by decide,
    (forwards_only_forwarded_layer id validOrder_id _
      (Reachable_run id validOrder_id _ _ (Reachable.addListener 7 (Reachable.init 9 2 0)))).2.2.2
      2 (intraFrame 2000 10 40000 1280 720)⟩

/-- What the candidate scan has established after the entries `done`: the
running best area is still zero, and the selected frame, if any, is an entry of
nonzero area and length whose length no entry of nonzero area exceeds. -/
theorem scan_foldl_max (fwd : Nat) :
    ∀ (l done : List (Nat × VideoFrame)) (c : Scan),
      c.currentDimensions = 0 →
      (c.selected = none → c.forwarded = fwd ∧ c.currentSize = 0 ∧
        ∀ e ∈ done, area e.2 = 0 ∨ e.2.length = 0) →
      (∀ w, c.selected = some w → (c.forwarded, w) ∈ done ∧ c.currentSize = w.length ∧
        0 < area w ∧ 0 < w.length ∧ ∀ e ∈ done, 0 < area e.2 → e.2.length ≤ w.length) →
      (l.foldl scanStep c).currentDimensions = 0 ∧
      ((l.foldl scanStep c).selected = none → (l.foldl scanStep c).forwarded = fwd ∧
        ∀ e ∈ done ++ l, area e.2 = 0 ∨ e.2.length = 0) ∧
      (∀ w, (l.foldl scanStep c).selected = some w →
        ((l.foldl scanStep c).forwarded, w) ∈ done ++ l ∧
        0 < area w ∧ 0 < w.length ∧ ∀ e ∈ done ++ l, 0 < area e.2 → e.2.length ≤ w.length)
  | [], done, c, h0, hn, hs => by
    simp only [List.foldl_nil, List.append_nil]
    exact ⟨h0, fun h => ⟨(hn h).1, (hn h).2.2⟩, fun w hw =>
      ⟨(hs w hw).1, (hs w hw).2.2.1, (hs w hw).2.2.2.1, (hs w hw).2.2.2.2⟩⟩
  | e :: rest, done, c, h0, hn, hs => by
    have ih := scan_foldl_max fwd rest (done ++ [e]) (scanStep c e)
    simp only [List.foldl_cons]
    have key : (scanStep c e).currentDimensions = 0 ∧
        ((scanStep c e).selected = none → (scanStep c e).forwarded = fwd ∧
          (scanStep c e).currentSize = 0 ∧ ∀ x ∈ done ++ [e], area x.2 = 0 ∨ x.2.length = 0) ∧
        (∀ w, (scanStep c e).selected = some w → ((scanStep c e).forwarded, w) ∈ done ++ [e] ∧
          (scanStep c e).currentSize = w.length ∧ 0 < area w ∧ 0 < w.length ∧
          ∀ x ∈ done ++ [e], 0 < area x.2 → x.2.length ≤ w.length) := by
      unfold scanStep
      dsimp only
      split
      · rename_i hc
        rw [h0] at hc
        refine ⟨h0, ?_, ?_⟩
        · intro h; simp at h
        · intro w hw
          simp only [Option.some.injEq] at hw
          subst hw
          refine ⟨by simp, rfl, hc.1, Nat.lt_of_le_of_lt (Nat.zero_le _) hc.2, ?_⟩
          intro x hx hax
          rcases List.mem_append.mp hx with h1 | h1
          · cases hsel : c.selected with
            | none =>
              rcases (hn hsel).2.2 x h1 with h2 | h2
              · omega
              · omega
            | some v =>
              obtain ⟨_, hsz, _, _, hmax⟩ := hs v hsel
              have := hmax x h1 hax
              omega
          · simp only [List.mem_singleton] at h1
            rw [h1]
      · rename_i hc
        rw [h0] at hc
        have hc2 : area e.2 = 0 ∨ e.2.length ≤ c.currentSize := by
          unfold area
          by_cases ha : 0 < mul32 e.2.width e.2.height
          · right
            by_contra hlt
            exact hc ⟨ha, by omega⟩
          · left; omega
        refine ⟨h0, ?_, ?_⟩
        · intro h
          obtain ⟨a, b, d⟩ := hn h
          refine ⟨a, b, ?_⟩
          intro x hx
          rcases List.mem_append.mp hx with h1 | h1
          · exact d x h1
          · simp only [List.mem_singleton] at h1
            rw [h1]
            rcases hc2 with h2 | h2
            · exact Or.inl h2
            · right; omega
        · intro w hw
          obtain ⟨a, b, c1, d, hmax⟩ := hs w hw
          refine ⟨by simp [a], b, c1, d, ?_⟩
          intro x hx hax
          rcases List.mem_append.mp hx with h1 | h1
          · exact hmax x h1 hax
          · simp only [List.mem_singleton] at h1
            rw [h1] at hax ⊢
            rcases hc2 with h2 | h2
            · omega
            · omega
    have r := ih key.1 (fun h => ⟨(key.2.1 h).1, (key.2.1 h).2.1, (key.2.1 h).2.2⟩) key.2.2
    simpa [List.append_assoc] using r

theorem scan_max (fwd : Nat) (l : List (Nat × VideoFrame)) :
    (scan fwd l).currentDimensions = 0 ∧
    ((scan fwd l).selected = none → ∀ e ∈ l, area e.2 = 0 ∨ e.2.length = 0) ∧
    (∀ w, (scan fwd l).selected = some w →
      ((scan fwd l).forwarded, w) ∈ l ∧ 0 < area w ∧ 0 < w.length ∧
      ∀ e ∈ l, 0 < area e.2 → e.2.length ≤ w.length) := by
  have h := scan_foldl_max fwd l [] ⟨none, fwd, 0, 0⟩ rfl
    (fun _ => ⟨rfl, rfl, fun e he => by simp at he⟩) (fun w hw => by simp at hw)
  refine ⟨h.1, ?_, ?_⟩
  · intro hn
    simpa using (h.2.1 hn).2
  · intro w hw
    simpa using h.2.2 w hw

theorem scan_nil (fwd : Nat) : (scan fwd []).selected = none := rfl

theorem not_loneAlive_nil (s : Selector) (h : s.iframes = []) : ¬ loneAlive s := by
  intro hl
  have := hl.1
  rw [h] at this
  simp at this

theorem validOrder_nil (ord : IterOrder) (hord : ValidOrder ord) : ord [] = [] :=
  List.Perm.eq_nil (hord [])

/-- `onMediaFrame` split into the call of `Select` it makes, if any, and the rest. -/
theorem onMediaFrame_selectCall (ord : IterOrder) (s : Selector) (ssrc : Nat) (f : VideoFrame) :
    onMediaFrame ord s ssrc f =
      match selectCall s ssrc f with
      | some t => Select ord t
      | none => withoutSelect s ssrc f := by
  unfold onMediaFrame selectCall withoutSelect
  by_cases ht : f.type = MediaType.Video
  · by_cases hi : f.intra = true
    · simp only [ht, ne_eq, not_true_eq_false, if_false, hi, if_true]
      split <;> rfl
    · have hi2 : f.intra = false := by simpa using hi
      by_cases hsel : s.selectionTime = 0
      · simp only [ht, ne_eq, not_true_eq_false, if_false, hi2, Bool.false_eq_true, hsel]
      · simp only [ht, ne_eq, not_true_eq_false, if_false, hi2, Bool.false_eq_true, hsel,
          not_false_eq_true, if_true]
        split <;> rfl
  · simp only [ht, ne_eq, not_false_eq_true, if_true]

/-- C12 (selection trigger): for a video frame with capture time `t`,
`onMediaFrame` calls `Select` exactly when: the frame is an intra frame and,
once it has been recorded, the candidate map has `numLayers` entries or
`t > selectionTime + 300`; or the frame is a delta frame, `selectionTime` is
nonzero and `t > selectionTime + 300` (the sum in `uint64_t` arithmetic).  The
call is made on the state that holds the recorded or buffered frame, and a
delta frame that arrives while `selectionTime` is zero never leads to it. -/
theorem selection_trigger (ord : IterOrder) (s : Selector) (ssrc : Nat) (f : VideoFrame)
    (hv : f.type = MediaType.Video) :
    (∀ t, selectCall s ssrc f = some t → onMediaFrame ord s ssrc f = Select ord t) ∧
    (selectCall s ssrc f = none → onMediaFrame ord s ssrc f = withoutSelect s ssrc f) ∧
    (f.intra = true →
      (selectCall s ssrc f = some (recordIntra s ssrc f) ∨ selectCall s ssrc f = none) ∧
      ((selectCall s ssrc f).isSome ↔
        (recordIntra s ssrc f).iframes.length = s.numLayers ∨
          f.time > ((recordIntra s ssrc f).selectionTime + 300) % 2 ^ 64)) ∧
    (f.intra = false → s.selectionTime ≠ 0 →
      (selectCall s ssrc f = some (bufferPending s ssrc f) ∨ selectCall s ssrc f = none) ∧
      ((selectCall s ssrc f).isSome ↔ f.time > (s.selectionTime + 300) % 2 ^ 64)) ∧
    (f.intra = false → s.selectionTime = 0 → selectCall s ssrc f = none) := by
  have hsplit := onMediaFrame_selectCall ord s ssrc f
  have hnl : (recordIntra s ssrc f).numLayers = s.numLayers := by
    unfold recordIntra
    dsimp only
    split <;> split <;> rfl
  refine ⟨?_, ?_, ?_, ?_, ?_⟩
  · intro t ht
    rw [hsplit, ht]
  · intro hn
    rw [hsplit, hn]
  · intro hi
    unfold selectCall
    simp only [hv, ne_eq, not_true_eq_false, if_false, hi, if_true, hnl, add64, FrameWaitingTime]
    split <;> simp_all
  · intro hi h0
    unfold selectCall
    simp only [hv, ne_eq, not_true_eq_false, if_false, hi, Bool.false_eq_true, h0,
      not_false_eq_true, if_true, add64, FrameWaitingTime, bufferPending]
    split <;> simp_all
  · intro hi h0
    unfold selectCall
    simp [hv, hi, h0]

theorem selection_trigger_witness :
    (intraFrame 100 2000 10 1 1).type = MediaType.Video ∧
    (selectCall (initial 9 2 0) 1 (intraFrame 100 2000 10 1 1)).isSome = false ∧
    (selectCall (initial 9 1 0) 1 (intraFrame 100 2000 10 1 1)).isSome = true ∧
    onMediaFrame id (initial 9 1 0) 1 (intraFrame 100 2000 10 1 1) =
      Select id (recordIntra (initial 9 1 0) 1 (intraFrame 100 2000 10 1 1)) :=
  ⟨rfl, by decide, by decide,
    (selection_trigger id (initial 9 1 0) 1 (intraFrame 100 2000 10 1 1) rfl).1 _ (by decide)⟩

/-- C13 (idle delta handling): with `selectionTime = 0`, a delta video frame
of the forwarded layer is passed to `ForwardFrame` (one trace entry, the state
being the one `ForwardFrame` returns), and a delta video frame of any other
layer is dropped: nothing is delivered and the selector is unchanged.  In both
cases the pending frames and the candidate map stay as they were. -/
theorem idle_delta (ord : IterOrder) (s : Selector) (layer : Nat) (f : VideoFrame)
    (hv : f.type = MediaType.Video) (hd : f.intra = false) (h0 : s.selectionTime = 0) :
    (layer = s.forwarded →
      onMediaFrame ord s layer f =
        ((ForwardFrame s f).1, [Forwarding.mk layer s.forwarded f (ForwardFrame s f).2.2]) ∧
      (onMediaFrame ord s layer f).1.pendingFrames = s.pendingFrames ∧
      (onMediaFrame ord s layer f).1.iframes = s.iframes) ∧
    (layer ≠ s.forwarded →
      onMediaFrame ord s layer f = (s, []) ∧ sinkCalls (onMediaFrame ord s layer f).2 = []) := by
  have e : onMediaFrame ord s layer f =
      if layer = s.forwarded then forwardLog layer s f else (s, []) := by
    unfold onMediaFrame
    simp [hv, hd, h0]
  constructor
  · intro hl
    rw [e, if_pos hl]
    exact ⟨rfl, (ForwardFrame_fields s f).2.2.2.2.2.2.2.2, (ForwardFrame_fields s f).2.2.2.2.2.2.2.1⟩
  · intro hl
    rw [e, if_neg hl]
    exact ⟨rfl, rfl⟩

theorem idle_delta_witness :
    rejectState.selectionTime = 0 ∧
    onMediaFrame id rejectState 2 (deltaFrame 5100 90 10) =
      ((ForwardFrame rejectState (deltaFrame 5100 90 10)).1,
        [Forwarding.mk 2 2 (deltaFrame 5100 90 10)
          (ForwardFrame rejectState (deltaFrame 5100 90 10)).2.2]) ∧
    onMediaFrame id rejectState 1 (deltaFrame 5100 90 10) = (rejectState, []) :=
  have h := idle_delta id rejectState
  ⟨rfl, ((h 2 (deltaFrame 5100 90 10) rfl rfl rfl).1 rfl).1,
    ((h 1 (deltaFrame 5100 90 10) rfl rfl rfl).2 (by decide)).1⟩

theorem lookup_some_ne_nil (l : List (Nat × VideoFrame)) (k : Nat) (c : VideoFrame)
    (h : l.lookup k = some c) : l.isEmpty = false := by
  cases l with
  | nil => simp [List.lookup] at h
  | cons a t => rfl

theorem lookup_none_not_mem (k : Nat) :
    ∀ (l : List (Nat × VideoFrame)), l.lookup k = none → k ∉ l.map Prod.fst
  | [], _ => by simp
  | (a, v) :: t, h => by
    by_cases hk : k = a
    · subst hk
      simp [List.lookup] at h
    · have hb : (k == a) = false := by simpa using hk
      simp only [List.lookup, hb] at h
      have := lookup_none_not_mem k t h
      simp only [List.map_cons, List.mem_cons, not_or]
      exact ⟨hk, this⟩

/-- The candidate map keeps at most one entry per layer when a frame is recorded. -/
theorem recordIntra_nodup (s : Selector) (ssrc : Nat) (f : VideoFrame)
    (h : (s.iframes.map Prod.fst).Nodup) : ((recordIntra s ssrc f).iframes.map Prod.fst).Nodup := by
  unfold recordIntra
  have hs1 : (if s.iframes.isEmpty = true then { s with selectionTime := f.time } else s).iframes
      = s.iframes := by split <;> rfl
  dsimp only
  rw [hs1]
  cases hl : s.iframes.lookup ssrc with
  | none =>
    simp only [hs1, List.map_append, List.map_cons, List.map_nil]
    rw [List.nodup_append]
    refine ⟨h, by simp, ?_⟩
    intro a ha hb
    simp only [List.mem_singleton] at hb
    subst hb
    exact lookup_none_not_mem _ _ hl ha
  | some c =>
    simp only [hs1]
    exact h

/-- C14 fails as stated: after `dupFrames` layer 1 has a candidate recorded at
capture time 2000; another intra frame of layer 1 arrives at capture time 2400,
past the waiting window, so the same call runs `Select` on the buffered state:
layer 1 is selected, the candidate and then the new frame are forwarded, and the
call returns with an empty candidate map and no pending frame. -/
theorem duplicate_intra_selected :
    Reachable (run id (AddMediaListener (initial 9 2 0) 7) dupFrames).1 ∧
    (run id (AddMediaListener (initial 9 2 0) 7) dupFrames).1.iframes.lookup 1 =
      some (intraFrame 200 2000 5 1 1) ∧
    (run id (AddMediaListener (initial 9 2 0) 7) dupFrames).1.pendingFrames = [] ∧
    (onMediaFrame id (run id (AddMediaListener (initial 9 2 0) 7) dupFrames).1 1
      (intraFrame 300 2400 5 1 1)).1.iframes = [] ∧
    (onMediaFrame id (run id (AddMediaListener (initial 9 2 0) 7) dupFrames).1 1
      (intraFrame 300 2400 5 1 1)).1.pendingFrames = [] ∧
    (onMediaFrame id (run id (AddMediaListener (initial 9 2 0) 7) dupFrames).1 1
      (intraFrame 300 2400 5 1 1)).1.pendingFrames ≠ [(1, intraFrame 300 2400 5 1 1)] ∧
    (onMediaFrame id (run id (AddMediaListener (initial 9 2 0) 7) dupFrames).1 1
      (intraFrame 300 2400 5 1 1)).2.map (fun e => (e.layer, e.frame.ts)) =
      [(1, 200), (1, 300)] := by
  refine ⟨Reachable_run id validOrder_id _ _
    (Reachable.addListener 7 (Reachable.init 9 2 0)), ?_⟩
  decide

/-- C14 as amended: when layer `L` already has a candidate `c`, an intra video
frame `f` of `L` is not recorded as a candidate: the candidate map is unchanged
(still `c` for `L`, at most one entry per layer) and `(L, f)` is appended to
the end of `pendingFrames`.  That is the state `onMediaFrame` returns when the
selection check of the same call does not fire, and the state on which it
calls `Select` when the check fires. -/
theorem duplicate_intra (ord : IterOrder) (s : Selector) (layer : Nat) (f c : VideoFrame)
    (hv : f.type = MediaType.Video) (hi : f.intra = true)
    (hc : s.iframes.lookup layer = some c) :
    recordIntra s layer f = { s with pendingFrames := s.pendingFrames ++ [(layer, f)] } ∧
    (recordIntra s layer f).iframes = s.iframes ∧
    (recordIntra s layer f).iframes.lookup layer = some c ∧
    (recordIntra s layer f).pendingFrames = s.pendingFrames ++ [(layer, f)] ∧
    ((s.iframes.map Prod.fst).Nodup → ((recordIntra s layer f).iframes.map Prod.fst).Nodup) ∧
    (selectCall s layer f = none →
      onMediaFrame ord s layer f =
        ({ s with pendingFrames := s.pendingFrames ++ [(layer, f)] }, [])) ∧
    (selectCall s layer f ≠ none →
      onMediaFrame ord s layer f =
        Select ord { s with pendingFrames := s.pendingFrames ++ [(layer, f)] }) := by
  have e : recordIntra s layer f = { s with pendingFrames := s.pendingFrames ++ [(layer, f)] } := by
    unfold recordIntra
    simp only [lookup_some_ne_nil _ _ _ hc, Bool.false_eq_true, if_false, hc]
  have hsplit := onMediaFrame_selectCall ord s layer f
  refine ⟨e, by rw [e], by rw [e]; exact hc, by rw [e], recordIntra_nodup s layer f, ?_, ?_⟩
  · intro hn
    rw [hsplit, hn]
    simp only [withoutSelect, hv, ne_eq, not_true_eq_false, if_false, hi, if_true, e]
  · intro hn
    rw [hsplit]
    cases hcall : selectCall s layer f with
    | none => exact absurd hcall hn
    | some t =>
      have ht : t = recordIntra s layer f := by
        unfold selectCall at hcall
        simp only [hv, ne_eq, not_true_eq_false, if_false, hi, if_true] at hcall
        split at hcall
        · exact (Option.some.inj hcall).symm
        · simp at hcall
      simp only [ht, e]

theorem duplicate_intra_witness :
    dupState.iframes.lookup 1 = some (intraFrame 100 1000 10 1 1) ∧
    onMediaFrame id dupState 1 (intraFrame 200 1100 10 1 1) =
      ({ dupState with pendingFrames := [(1, intraFrame 200 1100 10 1 1)] }, []) :=
  ⟨rfl, (duplicate_intra id dupState 1 (intraFrame 200 1100 10 1 1) (intraFrame 100 1000 10 1 1)
    rfl rfl rfl).2.2.2.2.2.1 (by decide)⟩

/-- C19 (effective selection rule): the scan never assigns
`currentDimensions`, so whatever the candidates and their order, the winner,
when there is one, is a candidate of nonzero area (`width*height` modulo 2^32)
and nonzero length whose length no candidate of nonzero area exceeds; areas are
never compared with one another.  There is no winner exactly when every
candidate has zero area or zero length, and when a single candidate attains
the maximum length the winner is the same for every iteration order. -/
theorem scan_effective_rule (fwd : Nat) (l : List (Nat × VideoFrame)) :
    (scan fwd l).currentDimensions = 0 ∧
    (∀ w, (scan fwd l).selected = some w →
      ((scan fwd l).forwarded, w) ∈ l ∧ 0 < area w ∧ 0 < w.length ∧
      ∀ e ∈ l, 0 < area e.2 → e.2.length ≤ w.length) ∧
    ((scan fwd l).selected = none ↔ ∀ e ∈ l, area e.2 = 0 ∨ e.2.length = 0) ∧
    (∀ (l2 : List (Nat × VideoFrame)) (w : VideoFrame), l2.Perm l →
      (scan fwd l).selected = some w →
      (∀ e ∈ l, 0 < area e.2 → e.2.length = w.length → e = ((scan fwd l).forwarded, w)) →
      (scan fwd l2).selected = some w ∧ (scan fwd l2).forwarded = (scan fwd l).forwarded) := by
  obtain ⟨h0, hn, hs⟩ := scan_max fwd l
  refine ⟨h0, hs, ⟨hn, ?_⟩, ?_⟩
  · intro hall
    cases hsel : (scan fwd l).selected with
    | none => rfl
    | some w =>
      obtain ⟨hm, ha, hl, _⟩ := hs w hsel
      rcases hall _ hm with h | h
      · simp only at h; omega
      · simp only at h; omega
  · intro l2 w hp hsel huniq
    obtain ⟨hm, ha, hl, hmax⟩ := hs w hsel
    obtain ⟨_, hn2, hs2⟩ := scan_max fwd l2
    cases hsel2 : (scan fwd l2).selected with
    | none =>
      rcases hn2 hsel2 _ (hp.symm.subset hm) with h | h
      · simp only at h; omega
      · simp only at h; omega
    | some w2 =>
      obtain ⟨hm2, ha2, hl2, hmax2⟩ := hs2 w2 hsel2
      have h1 : w.length ≤ w2.length := hmax2 _ (hp.symm.subset hm) ha
      have h2 : w2.length ≤ w.length := hmax _ (hp.subset hm2) ha2
      have he := huniq _ (hp.subset hm2) ha2 (Nat.le_antisymm h2 h1)
      simp only [Prod.mk.injEq] at he
      exact ⟨by rw [he.2], he.1⟩

/-- C16 (no-winner no-op): when `Select` reaches its scan (the first exit is
not taken) and the scan selects nothing, which is the case exactly when every
candidate has zero area or zero length, `Select` makes no call of
`ForwardFrame` and returns the selector as it was; in particular so for every
state with an empty candidate map. -/
theorem Select_without_winner (ord : IterOrder) (s : Selector) :
    (¬ loneAlive s → (scan s.forwarded (ord s.iframes)).selected = none →
      Select ord s = (s, []) ∧ sinkCalls (Select ord s).2 = [] ∧
      (Select ord s).1.forwarded = s.forwarded ∧
      (Select ord s).1.firstTimestamp = s.firstTimestamp ∧
      (Select ord s).1.offsetTimestamp = s.offsetTimestamp ∧
      (Select ord s).1.lastTimestamp = s.lastTimestamp ∧
      (Select ord s).1.lastTime = s.lastTime ∧
      (Select ord s).1.selectionTime = s.selectionTime ∧
      (Select ord s).1.iframes = s.iframes ∧
      (Select ord s).1.pendingFrames = s.pendingFrames) ∧
    ((scan s.forwarded (ord s.iframes)).selected = none ↔
      ∀ e ∈ ord s.iframes, area e.2 = 0 ∨ e.2.length = 0) ∧
    (ValidOrder ord → s.iframes = [] → Select ord s = (s, [])) := by
  refine ⟨?_, ?_, ?_⟩
  · intro h hsel
    have e := Select_none ord s h hsel
    rw [e]
    exact ⟨rfl, rfl, rfl, rfl, rfl, rfl, rfl, rfl, rfl, rfl⟩
  · constructor
    · exact (scan_max _ _).2.1
    · intro hall
      cases hsel : (scan s.forwarded (ord s.iframes)).selected with
      | none => rfl
      | some w =>
        obtain ⟨hm, ha, hl, _⟩ := (scan_max _ _).2.2 w hsel
        rcases hall _ hm with h | h
        · simp only at h; omega
        · simp only at h; omega
  · intro hord hnil
    have hsel : (scan s.forwarded (ord s.iframes)).selected = none := by
      rw [hnil, validOrder_nil ord hord]
      rfl
    exact Select_none ord s (not_loneAlive_nil s hnil) hsel

theorem Select_without_winner_witness :
    ¬ loneAlive rejectState ∧ rejectState.iframes = [] ∧
    Select id rejectState = (rejectState, []) :=
  ⟨not_loneAlive_nil rejectState rfl, rfl,
    (Select_without_winner id rejectState).2.2 validOrder_id rfl⟩

theorem sub64_eq (a b : Nat) (h : b ≤ a) (ha : a < 2 ^ 64) : sub64 a b = a - b := by
  unfold sub64
  norm_num at ha ⊢
  omega

theorem ForwardFrame_le (s : Selector) (f : VideoFrame)
    (h : s.firstTimestamp ≤ s.lastTimestamp ∨ s.firstTimestamp ≤ f.ts) :
    (ForwardFrame s f).1.firstTimestamp ≤ (ForwardFrame s f).1.lastTimestamp := by
  unfold ForwardFrame
  dsimp only
  split
  · rename_i hlt
    rcases h with h | h
    · exact h
    · omega
  · rename_i hge
    simp only
    omega

theorem forwardPending_le :
    ∀ (l : List (Nat × VideoFrame)) (s : Selector), s.firstTimestamp ≤ s.lastTimestamp →
      (forwardPending s l).1.firstTimestamp ≤ (forwardPending s l).1.lastTimestamp
  | [], _, h => h
  | (ssrc, f) :: rest, s, h => by
    unfold forwardPending
    split
    · exact forwardPending_le rest _ (ForwardFrame_le s f (Or.inl h))
    · exact forwardPending_le rest s h

theorem forwardAlive_le :
    ∀ (l : List (Nat × VideoFrame)) (s : Selector), s.firstTimestamp ≤ s.lastTimestamp →
      (forwardAlive s l).1.firstTimestamp ≤ (forwardAlive s l).1.lastTimestamp
  | [], _, h => h
  | (ssrc, f) :: rest, s, h => by
    unfold forwardAlive
    split
    · exact forwardAlive_le rest _ (ForwardFrame_le s f (Or.inl h))
    · exact forwardAlive_le rest s h

theorem Select_le (ord : IterOrder) (s : Selector) (h : s.firstTimestamp ≤ s.lastTimestamp) :
    (Select ord s).1.firstTimestamp ≤ (Select ord s).1.lastTimestamp := by
  have halive : (if s.iframes.length = 1 then forwardAlive s s.pendingFrames
      else (s, false, [])).1.firstTimestamp ≤
      (if s.iframes.length = 1 then forwardAlive s s.pendingFrames
      else (s, false, [])).1.lastTimestamp := by
    split
    · exact forwardAlive_le _ _ h
    · exact h
  unfold Select
  dsimp only
  generalize (if s.iframes.length = 1 then forwardAlive s s.pendingFrames
      else (s, false, [])) = alive at halive ⊢
  split
  · exact halive
  · split
    · exact halive
    · rename_i selected hsel
      apply forwardPending_le
      show (ForwardFrame _ selected).1.firstTimestamp ≤ (ForwardFrame _ selected).1.lastTimestamp
      apply ForwardFrame_le
      unfold changeLayer
      split
      · right; exact Nat.le_refl _
      · left; exact halive

theorem recordIntra_times (s : Selector) (ssrc : Nat) (f : VideoFrame) :
    (recordIntra s ssrc f).firstTimestamp = s.firstTimestamp ∧
    (recordIntra s ssrc f).lastTimestamp = s.lastTimestamp := by
  unfold recordIntra
  dsimp only
  split <;> split <;> exact ⟨rfl, rfl⟩

theorem onMediaFrame_le (ord : IterOrder) (s : Selector) (ssrc : Nat) (f : VideoFrame)
    (h : s.firstTimestamp ≤ s.lastTimestamp) :
    (onMediaFrame ord s ssrc f).1.firstTimestamp ≤ (onMediaFrame ord s ssrc f).1.lastTimestamp := by
  have hr : (recordIntra s ssrc f).firstTimestamp ≤ (recordIntra s ssrc f).lastTimestamp := by
    rw [(recordIntra_times s ssrc f).1, (recordIntra_times s ssrc f).2]; exact h
  rcases onMediaFrame_cases ord s ssrc f with h1 | ⟨_, h1 | h1⟩ | ⟨_, h1 | h1⟩ | ⟨_, _, h1⟩
  · rw [h1]; exact h
  · rw [h1]; exact hr
  · rw [h1]; exact Select_le ord _ hr
  · rw [h1]; exact h
  · rw [h1]; exact Select_le ord _ h
  · rw [h1]; exact ForwardFrame_le s f (Or.inl h)

theorem Reachable_le (s : Selector) (h : Reachable s) : s.firstTimestamp ≤ s.lastTimestamp := by
  induction h with
  | init ssrc numLayers noLayer => exact Nat.le_refl _
  | addListener l _ ih =>
    unfold AddMediaListener
    split
    · exact ih
    · exact ih
  | removeListener l _ ih => exact ih
  | setNumLayers n _ ih => exact ih
  | @frame s0 ord hord ssrc f _ ih => exact onMediaFrame_le ord s0 ssrc f ih
  | @select s0 ord hord _ ih => exact Select_le ord s0 ih
  | @stop s0 ord hord _ ih => exact Select_le ord s0 ih

theorem selectCall_times (s : Selector) (ssrc : Nat) (f : VideoFrame) (t : Selector)
    (h : selectCall s ssrc f = some t) :
    t.firstTimestamp = s.firstTimestamp ∧ t.lastTimestamp = s.lastTimestamp ∧
    t.offsetTimestamp = s.offsetTimestamp := by
  unfold selectCall at h
  split at h
  · simp at h
  · dsimp only at h
    split at h
    · split at h
      · have := Option.some.inj h
        subst this
        unfold recordIntra
        dsimp only
        split <;> split <;> exact ⟨rfl, rfl, rfl⟩
      · simp at h
    · split at h
      · split at h
        · have := Option.some.inj h
          subst this
          exact ⟨rfl, rfl, rfl⟩
        · simp at h
      · simp at h

/-- C20 (no underflow in the offset update): every reachable state has
`firstTimestamp <= lastTimestamp`, also the state on which `onMediaFrame` calls
`Select`, so the subtraction `lastTimestamp - firstTimestamp` of the offset
update does not wrap (for a `lastTimestamp` that fits 64 bits the wrapping
subtraction is the exact difference); and `ForwardFrame` rewrites a timestamp,
computing `ts - firstTimestamp`, only when `firstTimestamp <= ts`. -/
theorem no_underflow (s : Selector) (hs : Reachable s) :
    s.firstTimestamp ≤ s.lastTimestamp ∧
    (s.lastTimestamp < 2 ^ 64 →
      sub64 s.lastTimestamp s.firstTimestamp = s.lastTimestamp - s.firstTimestamp) ∧
    (∀ (ssrc : Nat) (f : VideoFrame) (t : Selector), selectCall s ssrc f = some t →
      t.firstTimestamp ≤ t.lastTimestamp ∧
      (t.lastTimestamp < 2 ^ 64 →
        sub64 t.lastTimestamp t.firstTimestamp = t.lastTimestamp - t.firstTimestamp)) ∧
    (∀ f : VideoFrame, (ForwardFrame s f).2.1.ts ≠ f.ts → s.firstTimestamp ≤ f.ts) := by
  have h := Reachable_le s hs
  refine ⟨h, fun hl => sub64_eq _ _ h hl, ?_, ?_⟩
  · intro ssrc f t ht
    obtain ⟨h1, h2, _⟩ := selectCall_times s ssrc f t ht
    rw [h1, h2]
    exact ⟨h, fun hl => sub64_eq _ _ h hl⟩
  · intro f hne
    by_contra hlt
    apply hne
    have : f.ts < s.firstTimestamp := by omega
    unfold ForwardFrame
    simp [this]

theorem no_underflow_witness :
    Reachable (run id (AddMediaListener (initial 9 2 0) 7) regressFrames).1 ∧
    (run id (AddMediaListener (initial 9 2 0) 7) regressFrames).1.firstTimestamp ≤
      (run id (AddMediaListener (initial 9 2 0) 7) regressFrames).1.lastTimestamp :=
  ⟨Reachable_run id validOrder_id _ _ (Reachable.addListener 7 (Reachable.init 9 2 0)),
    (no_underflow _
      (Reachable_run id validOrder_id _ _ (Reachable.addListener 7 (Reachable.init 9 2 0)))).1⟩

theorem ForwardFrame_calls (s : Selector) (f : VideoFrame) :
    (ForwardFrame s f).2.2 =
      if f.ts < s.firstTimestamp then []
      else s.listeners.map (fun l =>
        SinkCall.mk l s.ssrc
          (SetTimestamp f (add64 (f.ts - s.firstTimestamp) s.offsetTimestamp))) := by
  unfold ForwardFrame
  dsimp only
  split <;> rfl

/-- The trace of a `Select` that changes the forwarded layer. -/
theorem switch_trace (ord : IterOrder) (s : Selector)
    (hsw : (Select ord s).1.forwarded ≠ s.forwarded) :
    ∃ w, (scan s.forwarded (ord s.iframes)).selected = some w ∧
      ((Select ord s).1.forwarded, w) ∈ ord s.iframes ∧
      (Select ord s).1.firstTimestamp = w.ts ∧
      (Select ord s).1.offsetTimestamp =
        add64 s.offsetTimestamp
          (add64 (sub64 s.lastTimestamp s.firstTimestamp) (switchDiff s s.forwarded w)) ∧
      (Select ord s).1.pendingFrames = [] ∧
      (Select ord s).2 =
        (((Select ord s).1.forwarded, w) ::
          s.pendingFrames.filter (fun e => decide (e.1 = (Select ord s).1.forwarded))).map
          (entryOf (switched s (Select ord s).1.forwarded (Select ord s).1.offsetTimestamp w)) := by
  obtain ⟨hl, w, hw⟩ := switch_from_scan ord s hsw
  obtain ⟨w2, hw2, hmem, hfirst, hoff⟩ := switch_effect ord s hsw
  have hww : w2 = w := Option.some.inj (hw2.symm.trans hw)
  subst hww
  obtain ⟨ht, _, _, _, hf, _, hoff3, _, _, hp⟩ := Select_some ord s hl w2 hw
  refine ⟨w2, hw, hmem, hfirst, hoff, hp, ?_⟩
  have hne : s.forwarded ≠ (scan s.forwarded (ord s.iframes)).forwarded := by
    rw [← hf]; exact fun h => hsw h.symm
  have e3 : changeLayer { s with forwarded := (scan s.forwarded (ord s.iframes)).forwarded }
      s.forwarded w2 =
      switched s (Select ord s).1.forwarded (Select ord s).1.offsetTimestamp w2 := by
    rw [hoff, hf]
    unfold changeLayer switched
    simp only [hne, ne_eq, not_false_eq_true, if_true]
    rfl
  rw [ht, e3, hf]
  rfl

/-- C11 fails as stated: after `lossFrames` an intra frame of layer 2 with
timestamp 200 makes `Select` switch from layer 1 to layer 2 while a delta frame
of layer 2 with timestamp 150 is pending.  `ForwardFrame` is called on it right
after the winner and rejects it, `firstTimestamp` being 200 by then: the
listener receives the winner only. -/
theorem replay_drops_older_frame :
    onMediaFrame id (run id (AddMediaListener (initial 9 2 0) 7) lossFrames).1 2
        (intraFrame 200 1150 10 1 1) = Select id lossState ∧
    lossState.forwarded = 1 ∧ (Select id lossState).1.forwarded = 2 ∧
    (2, deltaFrame 150 1100 3) ∈ lossState.pendingFrames ∧
    (Select id lossState).2 =
      [ Forwarding.mk 2 2 (intraFrame 200 1150 10 1 1)
          [SinkCall.mk 7 9 (intraFrame 1100 1150 10 1 1)],
        Forwarding.mk 2 2 (deltaFrame 150 1100 3) [] ] ∧
    sinkCalls (Select id lossState).2 = [SinkCall.mk 7 9 (intraFrame 1100 1150 10 1 1)] := by
  decide

/-- C11 as amended: when `Select` switches to a new layer `W` with winner `w`,
`ForwardFrame` is called on `w` and then on every pending frame of layer `W`,
in arrival order, and on no pending frame of another layer; each of these
frames reaches every listener, with the rewritten timestamp that
`SetTimestamp` stores, when its timestamp is at least that of `w` and is
dropped by the guard of `ForwardFrame` otherwise; afterwards `pendingFrames` is
empty. -/
theorem replay_after_switch (ord : IterOrder) (s : Selector)
    (hsw : (Select ord s).1.forwarded ≠ s.forwarded) :
    ∃ w, ((Select ord s).1.forwarded, w) ∈ ord s.iframes ∧
      (Select ord s).2.map (fun e => (e.layer, e.frame)) =
        ((Select ord s).1.forwarded, w) ::
          s.pendingFrames.filter (fun e => decide (e.1 = (Select ord s).1.forwarded)) ∧
      (∀ e ∈ (Select ord s).2,
        e.calls =
          if e.frame.ts < w.ts then []
          else s.listeners.map (fun l =>
            SinkCall.mk l s.ssrc
              (SetTimestamp e.frame
                (add64 (e.frame.ts - w.ts) (Select ord s).1.offsetTimestamp)))) ∧
      (∀ e ∈ s.pendingFrames, e.1 ≠ (Select ord s).1.forwarded →
        (e.1, e.2) ∉ (Select ord s).2.map (fun x => (x.layer, x.frame))) ∧
      (Select ord s).1.pendingFrames = [] := by
  obtain ⟨w, _, hmem, _, _, hp, ht⟩ := switch_trace ord s hsw
  have hmap : (Select ord s).2.map (fun e => (e.layer, e.frame)) =
      ((Select ord s).1.forwarded, w) ::
        s.pendingFrames.filter (fun e => decide (e.1 = (Select ord s).1.forwarded)) := by
    rw [ht, List.map_map]
    have : ((fun e : Forwarding => (e.layer, e.frame)) ∘
        entryOf (switched s (Select ord s).1.forwarded (Select ord s).1.offsetTimestamp w)) = id := by
      funext e; rfl
    rw [this, List.map_id]
  refine ⟨w, hmem, hmap, ?_, ?_, hp⟩
  · intro e he
    rw [ht] at he
    obtain ⟨p, _, rfl⟩ := List.mem_map.mp he
    simp only [entryOf, ForwardFrame_calls, switched]
  · intro e he hne hin
    rw [hmap] at hin
    rcases List.mem_cons.mp hin with h1 | h1
    · exact hne (congrArg Prod.fst h1)
    · rw [List.mem_filter] at h1
      exact hne (by simpa using h1.2)

theorem replay_after_switch_witness :
    (Select id lossState).1.forwarded ≠ lossState.forwarded ∧
    ∃ w, ((Select id lossState).1.forwarded, w) ∈ id lossState.iframes ∧
      (Select id lossState).2.map (fun e => (e.layer, e.frame)) =
        ((Select id lossState).1.forwarded, w) ::
          lossState.pendingFrames.filter
            (fun e => decide (e.1 = (Select id lossState).1.forwarded)) :=
  ⟨by decide, (replay_after_switch id lossState (by decide)).imp fun _ h => ⟨h.1, h.2.1⟩⟩

theorem add64_assoc3 (a b c : Nat) : add64 a (add64 b c) = (b + a + c) % 2 ^ 64 := by
  unfold add64
  norm_num
  omega

/-- C18 (switch continuity equation), as amended: when `Select` switches layers
from a state with `firstTimestamp <= lastTimestamp`, whose last output
timestamp is `lastOutput s`, the winner is delivered to every listener with
the timestamp `lastOutput s + diff` stored by `SetTimestamp(DWORD)`, that is
`(lastTimestamp - firstTimestamp + offsetTimestamp) + diff` modulo `2 ^ 32`;
when that sum is below `2 ^ 32` it is the sum itself, not below the last output
timestamp; and when the previous layer has a candidate with timestamp
`P > lastTimestamp` it is `P - firstTimestamp + offsetTimestamp` modulo
`2 ^ 32`, the timestamp `ForwardFrame` gives that candidate without the
switch. -/
theorem switch_continuity (ord : IterOrder) (s : Selector)
    (hsw : (Select ord s).1.forwarded ≠ s.forwarded)
    (hle : s.firstTimestamp ≤ s.lastTimestamp) (hl : s.lastTimestamp < 2 ^ 64) :
    ∃ w rest, (scan s.forwarded (ord s.iframes)).selected = some w ∧
      (Select ord s).2 =
        Forwarding.mk (Select ord s).1.forwarded (Select ord s).1.forwarded w
          (s.listeners.map (fun l => SinkCall.mk l s.ssrc
            (SetTimestamp w (lastOutput s + switchDiff s s.forwarded w)))) :: rest ∧
      (SetTimestamp w (lastOutput s + switchDiff s s.forwarded w)).ts =
        (s.lastTimestamp - s.firstTimestamp + s.offsetTimestamp +
          switchDiff s s.forwarded w) % 2 ^ 32 ∧
      (s.lastTimestamp - s.firstTimestamp + s.offsetTimestamp + switchDiff s s.forwarded w
          < 2 ^ 32 →
        (SetTimestamp w (lastOutput s + switchDiff s s.forwarded w)).ts =
          (s.lastTimestamp - s.firstTimestamp + s.offsetTimestamp) +
            switchDiff s s.forwarded w ∧
        lastOutput s = s.lastTimestamp - s.firstTimestamp + s.offsetTimestamp ∧
        lastOutput s ≤ (SetTimestamp w (lastOutput s + switchDiff s s.forwarded w)).ts) ∧
      (∀ p, s.iframes.lookup s.forwarded = some p → s.lastTimestamp < p.ts →
        (SetTimestamp w (lastOutput s + switchDiff s s.forwarded w)).ts =
          (p.ts - s.firstTimestamp + s.offsetTimestamp) % 2 ^ 32 ∧
        (SetTimestamp w (lastOutput s + switchDiff s s.forwarded w)).ts =
          (ForwardFrame s p).2.1.ts ∧
        (p.ts - s.firstTimestamp + s.offsetTimestamp < 2 ^ 32 →
          (SetTimestamp w (lastOutput s + switchDiff s s.forwarded w)).ts =
            p.ts - s.firstTimestamp + s.offsetTimestamp)) := by
  obtain ⟨w, hw, _, hfirst, hoff, _, ht⟩ := switch_trace ord s hsw
  have hts : (SetTimestamp w (lastOutput s + switchDiff s s.forwarded w)).ts =
      (s.lastTimestamp - s.firstTimestamp + s.offsetTimestamp +
        switchDiff s s.forwarded w) % 2 ^ 32 := by
    unfold SetTimestamp lastOutput add64
    dsimp only
    norm_num
  have hoff2 : SetTimestamp w (add64 0 (Select ord s).1.offsetTimestamp) =
      SetTimestamp w (lastOutput s + switchDiff s s.forwarded w) := by
    rw [hoff, sub64_eq _ _ hle hl]
    unfold SetTimestamp lastOutput add64
    congr 1
    norm_num
    omega
  refine ⟨w, (s.pendingFrames.filter
      (fun e => decide (e.1 = (Select ord s).1.forwarded))).map
      (entryOf (switched s (Select ord s).1.forwarded (Select ord s).1.offsetTimestamp w)),
    hw, ?_, hts, ?_, ?_⟩
  · rw [ht]
    simp only [List.map_cons, entryOf, ForwardFrame_calls, switched, Nat.lt_irrefl, if_false,
      Nat.sub_self, hoff2]
  · intro hnw
    have h1 := Nat.mod_eq_of_lt hnw
    refine ⟨hts.trans h1, ?_, ?_⟩
    · unfold lastOutput add64
      norm_num at hnw ⊢
      omega
    · rw [hts, h1]
      unfold lastOutput add64
      norm_num at hnw ⊢
      omega
  · intro p hp hlt
    have hd : switchDiff s s.forwarded w = p.ts - s.lastTimestamp := by
      unfold switchDiff
      rw [hp]
      simp [hlt]
    have e1 : (SetTimestamp w (lastOutput s + switchDiff s s.forwarded w)).ts =
        (p.ts - s.firstTimestamp + s.offsetTimestamp) % 2 ^ 32 := by
      rw [hts, hd]
      congr 1
      omega
    refine ⟨e1, ?_, fun hnw => e1.trans (Nat.mod_eq_of_lt hnw)⟩
    rw [e1]
    unfold ForwardFrame
    have : ¬ p.ts < s.firstTimestamp := by omega
    simp only [this, if_false, add64, SetTimestamp]
    exact (Nat.mod_mod_of_dvd _ (by norm_num)).symm

theorem switch_continuity_witness :
    (Select id lossState).1.forwarded ≠ lossState.forwarded ∧
    lossState.firstTimestamp ≤ lossState.lastTimestamp ∧
    lossState.lastTimestamp < 2 ^ 64 ∧
    ∃ w, (scan lossState.forwarded (id lossState.iframes)).selected = some w ∧
      (SetTimestamp w (lastOutput lossState + switchDiff lossState lossState.forwarded w)).ts =
        1100 :=
  ⟨by decide, by decide, by decide,
    (switch_continuity id lossState (by decide) (by decide) (by decide)).elim
      fun w h => h.elim fun _ h2 => ⟨w, h2.1, by
        have hs : (scan lossState.forwarded (id lossState.iframes)).selected =
            some (intraFrame 200 1150 10 1 1) := by decide
        have e : w = intraFrame 200 1150 10 1 1 := Option.some.inj (h2.1.symm.trans hs)
        rw [e]
        decide⟩⟩

/-- C18, as the specification words it: the winner of a switch is not always
delivered with the last output timestamp plus delta, nor with a timestamp that
is not below the last output timestamp.  After the first frame of `wrapFrames`
layer 1 is forwarded and its frame went out with timestamp `4294967295`, which
is `lastTimestamp - firstTimestamp + offsetTimestamp`; the intra frame of
layer 2 then wins with delta 1, the sum is `4294967296`, and the listener
receives the timestamp 0. -/
theorem switch_continuity_counterexample :
    sentTimestamps (run id (AddMediaListener (initial 9 1 0) 7) wrapFrames).2 =
      [4294967295, 0] ∧
    recordIntra (run id (AddMediaListener (initial 9 1 0) 7) [(1, intraFrame 100 4294967295 10 1 1)]).1
      2 (intraFrame 500 4294967296 10 1 1) = wrapState ∧
    (Select id wrapState).1.forwarded ≠ wrapState.forwarded ∧
    (scan wrapState.forwarded (id wrapState.iframes)).selected =
      some (intraFrame 500 4294967296 10 1 1) ∧
    wrapState.lastTimestamp - wrapState.firstTimestamp + wrapState.offsetTimestamp =
      4294967295 ∧
    switchDiff wrapState wrapState.forwarded (intraFrame 500 4294967296 10 1 1) = 1 ∧
    sinkCalls (Select id wrapState).2 = [SinkCall.mk 7 9 (intraFrame 0 4294967296 10 1 1)] := by
  refine ⟨by decide, by decide, by decide, by decide, by decide, by decide, by decide⟩

theorem sinkCalls_nil : ∀ (tr : List Forwarding), (∀ e ∈ tr, e.calls = []) → sinkCalls tr = []
  | [], _ => rfl
  | e :: rest, h => by
    simp only [sinkCalls, h e (List.mem_cons_self _ _), List.nil_append]
    exact sinkCalls_nil rest (fun x hx => h x (List.mem_cons_of_mem _ hx))

theorem sinkCalls_append : ∀ (a b : List Forwarding),
    sinkCalls (a ++ b) = sinkCalls a ++ sinkCalls b
  | [], _ => rfl
  | e :: rest, b => by
    show e.calls ++ sinkCalls (rest ++ b) = (e.calls ++ sinkCalls rest) ++ sinkCalls b
    rw [sinkCalls_append rest b, List.append_assoc]

theorem entryOf_calls_nil (s : Selector) (h : s.listeners = []) (e : Nat × VideoFrame) :
    (entryOf s e).calls = [] := by
  simp only [entryOf, ForwardFrame_calls, h, List.map_nil, ite_self]

/-- Without listeners `Select` delivers nothing. -/
theorem Select_no_listeners (ord : IterOrder) (s : Selector) (h : s.listeners = []) :
    sinkCalls (Select ord s).2 = [] := by
  apply sinkCalls_nil
  intro e he
  by_cases hl : loneAlive s
  · obtain ⟨ht, _⟩ := Select_lone ord s hl
    rw [ht] at he
    obtain ⟨p, _, rfl⟩ := List.mem_map.mp he
    exact entryOf_calls_nil s h p
  · cases hsel : (scan s.forwarded (ord s.iframes)).selected with
    | none =>
      rw [Select_none ord s hl hsel] at he
      simp at he
    | some w =>
      obtain ⟨ht, _⟩ := Select_some ord s hl w hsel
      have h3 : (changeLayer { s with forwarded := (scan s.forwarded (ord s.iframes)).forwarded }
          s.forwarded w).listeners = [] :=
        (changeLayer_fields _ _ _).2.2.1.trans h
      rw [ht] at he
      rcases List.mem_cons.mp he with rfl | he
      · exact entryOf_calls_nil _ h3 _
      · obtain ⟨p, _, rfl⟩ := List.mem_map.mp he
        exact entryOf_calls_nil _ h3 p

/-- C15 fails as stated: in the reachable state `unsizedRound` the only
candidate has no picture size, so the `Select` of the first `Stop` finds no
winner and leaves the round as it is; after the first `Stop` the listeners are
gone and the candidate map still holds the candidate. -/
theorem stop_leaves_round :
    Reachable unsizedRound ∧
    unsizedRound.iframes = [(1, intraFrame 100 1000 10 0 0)] ∧
    (Stop id unsizedRound).2 = [] ∧
    (Stop id unsizedRound).1.listeners = [] ∧
    (Stop id unsizedRound).1.iframes = [(1, intraFrame 100 1000 10 0 0)] ∧
    (Stop id unsizedRound).1.iframes ≠ [] := by
  refine ⟨Reachable_run id validOrder_id _ _
    (Reachable.addListener 7 (Reachable.init 9 2 0)), ?_⟩
  decide

/-- C15 as amended: for every state, after the first `Stop` the set of
listeners is empty, so the second `Stop` delivers nothing and two `Stop` calls
deliver exactly what the first delivers; when the `Select` of the first `Stop`
picks a winner, the candidate map and `pendingFrames` are empty afterwards and
the second `Stop` changes nothing; when it reaches its scan and finds no
winner, the candidate map and `pendingFrames` are left as they were. -/
theorem stop_twice (ord ord2 : IterOrder) (s : Selector) :
    (Stop ord s).1.listeners = [] ∧
    sinkCalls (Stop ord2 (Stop ord s).1).2 = [] ∧
    sinkCalls ((Stop ord s).2 ++ (Stop ord2 (Stop ord s).1).2) = sinkCalls (Stop ord s).2 ∧
    (∀ w, ¬ loneAlive s → (scan s.forwarded (ord s.iframes)).selected = some w →
      (Stop ord s).1.iframes = [] ∧ (Stop ord s).1.pendingFrames = [] ∧
      (ValidOrder ord2 → Stop ord2 (Stop ord s).1 = ((Stop ord s).1, []))) ∧
    (¬ loneAlive s → (scan s.forwarded (ord s.iframes)).selected = none →
      (Stop ord s).1.iframes = s.iframes ∧ (Stop ord s).1.pendingFrames = s.pendingFrames) := by
  have h1 : (Stop ord s).1.listeners = [] := rfl
  have h2 : sinkCalls (Stop ord2 (Stop ord s).1).2 = [] :=
    Select_no_listeners ord2 (Stop ord s).1 h1
  refine ⟨h1, h2, by rw [sinkCalls_append, h2, List.append_nil], ?_, ?_⟩
  · intro w hl hsel
    obtain ⟨_, _, _, _, _, _, _, _, hi, hp⟩ := Select_some ord s hl w hsel
    have hi2 : (Stop ord s).1.iframes = [] := hi
    have hp2 : (Stop ord s).1.pendingFrames = [] := hp
    refine ⟨hi2, hp2, ?_⟩
    intro hord
    have hsel2 : (scan (Stop ord s).1.forwarded (ord2 (Stop ord s).1.iframes)).selected = none := by
      rw [hi2, validOrder_nil ord2 hord]
      rfl
    have e := Select_none ord2 (Stop ord s).1 (not_loneAlive_nil _ hi2) hsel2
    unfold Stop at e ⊢
    dsimp only at e ⊢
    rw [e]
  · intro hl hsel
    have e := Select_none ord s hl hsel
    unfold Stop
    dsimp only
    rw [e]
    exact ⟨rfl, rfl⟩

theorem stop_twice_witness :
    ¬ loneAlive lossState ∧
    (Stop id lossState).1.iframes = [] ∧ (Stop id lossState).1.pendingFrames = [] ∧
    Stop id (Stop id lossState).1 = ((Stop id lossState).1, []) :=
  have hl : ¬ loneAlive lossState := not_loneAlive_of_length lossState (by decide)
  have h := (stop_twice id id lossState).2.2.2.1 (intraFrame 200 1150 10 1 1) hl (by decide)
  ⟨hl, h.1, h.2.1, h.2.2 validOrder_id⟩

theorem AdquireBuffer_spec (ops : BufferOps) (h : Heap) (f : MediaFrame) (hv : f.buffer < h.length) :
    (AdquireBuffer ops h f).2.ownedBuffer = true ∧
    (AdquireBuffer ops h f).2.buffer < (AdquireBuffer ops h f).1.length ∧
    h.length ≤ (AdquireBuffer ops h f).1.length ∧
    (f.ownedBuffer = false → (AdquireBuffer ops h f).2.buffer = h.length ∧
      deref (AdquireBuffer ops h f).1 h.length = ops.copy (deref h f.buffer).data) ∧
    (f.ownedBuffer = true → AdquireBuffer ops h f = (h, f)) ∧
    (∀ p, p < h.length → (AdquireBuffer ops h f).1[p]? = h[p]?) := by
  unfold AdquireBuffer
  by_cases ho : f.ownedBuffer = true
  · rw [if_pos ho]
    exact ⟨ho, hv, Nat.le_refl _, fun h2 => by rw [ho] at h2; simp at h2, fun _ => rfl,
      fun _ _ => rfl⟩
  · have ho2 : f.ownedBuffer = false := by simpa using ho
    rw [if_neg ho]
    refine ⟨rfl, by simp, by simp, fun _ => ⟨rfl, by simp [deref]⟩,
      fun h2 => by rw [ho2] at h2; simp at h2, ?_⟩
    intro p hp
    exact List.getElem?_append_left hp

theorem onOwnBuffer_spec (ops : BufferOps) (h : Heap) (f : MediaFrame) (method : Buffer → Buffer)
    (hv : f.buffer < h.length) :
    (onOwnBuffer ops h f method).2.ownedBuffer = true ∧
    (∀ p, p < h.length → (f.ownedBuffer = false ∨ p ≠ f.buffer) →
      (onOwnBuffer ops h f method).1[p]? = h[p]?) ∧
    (f.ownedBuffer = false →
      deref (onOwnBuffer ops h f method).1 (onOwnBuffer ops h f method).2.buffer =
        method (ops.copy (deref h f.buffer).data)) ∧
    (f.ownedBuffer = true →
      (onOwnBuffer ops h f method).2 = f ∧
      deref (onOwnBuffer ops h f method).1 f.buffer = method (deref h f.buffer)) := by
  obtain ⟨a1, a2, a3, a4, a5, a6⟩ := AdquireBuffer_spec ops h f hv
  unfold onOwnBuffer
  dsimp only
  refine ⟨a1, ?_, ?_, ?_⟩
  · intro p hp hor
    have hne : (AdquireBuffer ops h f).2.buffer ≠ p := by
      by_cases ho : f.ownedBuffer = true
      · rw [a5 ho]
        rcases hor with h1 | h1
        · rw [ho] at h1; simp at h1
        · exact fun h2 => h1 h2.symm
      · have ho2 : f.ownedBuffer = false := by simpa using ho
        rw [(a4 ho2).1]
        omega
    rw [List.getElem?_set_ne hne]
    exact a6 p hp
  · intro ho
    have hb := (a4 ho).1
    simp only [deref, List.getD_eq_getElem?_getD, List.getElem?_set_self a2, Option.getD_some]
    rw [hb]
    have := (a4 ho).2
    simp only [deref, List.getD_eq_getElem?_getD] at this
    rw [this]
  · intro ho
    rw [a5 ho]
    refine ⟨rfl, ?_⟩
    simp only [deref, List.getD_eq_getElem?_getD, List.getElem?_set_self hv, Option.getD_some]

/-- The frame and its buffer after `AdquireBuffer` and a method of `Buffer`. -/
theorem onOwnBuffer_result (ops : BufferOps) (h : Heap) (f : MediaFrame) (method : Buffer → Buffer)
    (hv : f.buffer < h.length) :
    (onOwnBuffer ops h f method).2.buffer < (onOwnBuffer ops h f method).1.length ∧
    deref (onOwnBuffer ops h f method).1 (onOwnBuffer ops h f method).2.buffer =
      method (writable ops h f) ∧
    (onOwnBuffer ops h f method).2 =
      { f with buffer := if f.ownedBuffer then f.buffer else h.length, ownedBuffer := true } ∧
    (onOwnBuffer ops h f method).1.length = if f.ownedBuffer then h.length else h.length + 1 := by
  obtain ⟨a1, a2, a3, a4, a5, a6⟩ := AdquireBuffer_spec ops h f hv
  obtain ⟨b1, b2, b3, b4⟩ := onOwnBuffer_spec ops h f method hv
  have hlen : (onOwnBuffer ops h f method).1.length = (AdquireBuffer ops h f).1.length := by
    unfold onOwnBuffer
    simp
  have hfr : (onOwnBuffer ops h f method).2 = (AdquireBuffer ops h f).2 := rfl
  by_cases ho : f.ownedBuffer = true
  · refine ⟨by rw [hlen, hfr]; exact a2, ?_, ?_, ?_⟩
    · rw [(b4 ho).1, (b4 ho).2]
      simp [writable, ho]
    · rw [(b4 ho).1]
      cases f
      simp_all
    · rw [hlen, a5 ho]
      simp [ho]
  · have ho2 : f.ownedBuffer = false := by simpa using ho
    refine ⟨by rw [hlen, hfr]; exact a2, ?_, ?_, ?_⟩
    · rw [b3 ho2]
      simp [writable, ho2]
    · rw [hfr]
      unfold AdquireBuffer
      simp [ho2]
    · rw [hlen]
      unfold AdquireBuffer
      simp [ho2]

/-- The frame, its buffer and the size of the heap after a mutating operation. -/
theorem mutation_result (ops : BufferOps) (h : Heap) (f : MediaFrame) (m : Mutation)
    (hv : f.buffer < h.length) :
    (Mutation.apply ops h f m).2.buffer < (Mutation.apply ops h f m).1.length ∧
    deref (Mutation.apply ops h f m).1 (Mutation.apply ops h f m).2.buffer =
      (match m with
        | Mutation.getData write =>
          { writable ops h f with data := write (writable ops h f).data }
        | Mutation.setLength length => ops.setSize (writable ops h f) length
        | Mutation.alloc size => ops.alloc (writable ops h f) size
        | Mutation.setMedia data => ops.setData (writable ops h f) data
        | Mutation.appendMedia data => ops.appendData (writable ops h f) data
        | Mutation.resetData size => ops.fresh size
        | Mutation.reset => ops.fresh 0) ∧
    (Mutation.apply ops h f m).2 =
      (match m with
        | Mutation.resetData _ => { f with buffer := h.length, ownedBuffer := true }
        | Mutation.reset =>
          { f with buffer := h.length, ownedBuffer := true, rtpInfo := [], ts := 2 ^ 32 - 1 }
        | _ =>
          { f with buffer := if f.ownedBuffer then f.buffer else h.length, ownedBuffer := true }) ∧
    (Mutation.apply ops h f m).1.length =
      (match m with
        | Mutation.resetData _ => h.length + 1
        | Mutation.reset => h.length + 1
        | _ => if f.ownedBuffer then h.length else h.length + 1) := by
  have fresh : ∀ size, deref (h ++ [ops.fresh size]) h.length = ops.fresh size := by
    intro size
    simp [deref]
  cases m with
  | getData write =>
    obtain ⟨a, b, c, d⟩ := onOwnBuffer_result ops h f
      (fun b => { b with data := write b.data }) hv
    exact ⟨a, b, c, d⟩
  | setLength length =>
    obtain ⟨a, b, c, d⟩ := onOwnBuffer_result ops h f (fun b => ops.setSize b length) hv
    exact ⟨a, b, c, d⟩
  | alloc size =>
    obtain ⟨a, b, c, d⟩ := onOwnBuffer_result ops h f (fun b => ops.alloc b size) hv
    exact ⟨a, b, c, d⟩
  | setMedia data =>
    obtain ⟨a, b, c, d⟩ := onOwnBuffer_result ops h f (fun b => ops.setData b data) hv
    exact ⟨a, b, c, d⟩
  | appendMedia data =>
    obtain ⟨a, b, c, d⟩ := onOwnBuffer_result ops h f (fun b => ops.appendData b data) hv
    exact ⟨a, b, c, d⟩
  | resetData size =>
    exact ⟨by simp [Mutation.apply, ResetData], fresh size, rfl, by simp [Mutation.apply, ResetData]⟩
  | reset =>
    exact ⟨by simp [Mutation.apply, Reset, ResetData], fresh 0, rfl,
      by simp [Mutation.apply, Reset, ResetData]⟩

/-- C17 (copy-on-write ownership): for a frame whose buffer pointer is in
the heap, after each mutating operation (the mutable `GetData`, `SetLength`,
`Alloc`, `SetMedia`, `AppendMedia`, `ResetData`, `Reset`) `ownedBuffer` is true;
when the frame was not owning its buffer before, that shared buffer has the
same contents and size afterwards, the frame points to a new buffer, and for
the operations that go through `AdquireBuffer` the new buffer is the result of
the `Buffer` method on a copy of the shared bytes.  No other buffer of the heap
changes.  A frame built with a size owns its new buffer; a frame built around
a buffer shares it without owning it.  After the operation the frame points
into the heap, to a buffer that holds what the operation makes of the own
buffer or of the copy (`writable`): the bytes written through `GetData`, the
result of `SetSize`, `Alloc`, `SetData` or `AppendData`, or the new buffer of
`ResetData` and `Reset`; the pointer is the old one only when the frame owned
its buffer and the operation goes through `AdquireBuffer`, and the heap grows
by exactly the one new buffer otherwise. -/
theorem copy_on_write (ops : BufferOps) (h : Heap) (f : MediaFrame) (m : Mutation)
    (hv : f.buffer < h.length) :
    (Mutation.apply ops h f m).2.ownedBuffer = true ∧
    (f.ownedBuffer = false → (Mutation.apply ops h f m).1[f.buffer]? = h[f.buffer]?) ∧
    (f.ownedBuffer = false →
      deref (Mutation.apply ops h f m).1 f.buffer = deref h f.buffer ∧
      (deref (Mutation.apply ops h f m).1 f.buffer).data.length =
        (deref h f.buffer).data.length) ∧
    (∀ p, p < h.length → (f.ownedBuffer = false ∨ p ≠ f.buffer) →
      (Mutation.apply ops h f m).1[p]? = h[p]?) ∧
    (f.ownedBuffer = false → (Mutation.apply ops h f m).2.buffer = h.length) ∧
    (∀ method : Buffer → Buffer, f.ownedBuffer = false →
      deref (onOwnBuffer ops h f method).1 (onOwnBuffer ops h f method).2.buffer =
        method (ops.copy (deref h f.buffer).data)) ∧
    (∀ (type : MediaType) (size : Nat),
      (MediaFrame.create ops h type size).2.ownedBuffer = true ∧
      (MediaFrame.create ops h type size).2.buffer <
        (MediaFrame.create ops h type size).1.length) ∧
    (∀ (type : MediaType), (MediaFrame.wrap h type f.buffer).2.ownedBuffer = false ∧
      (MediaFrame.wrap h type f.buffer).1 = h) ∧
    (Mutation.apply ops h f m).2.buffer < (Mutation.apply ops h f m).1.length ∧
    deref (Mutation.apply ops h f m).1 (Mutation.apply ops h f m).2.buffer =
      (match m with
        | Mutation.getData write =>
          { writable ops h f with data := write (writable ops h f).data }
        | Mutation.setLength length => ops.setSize (writable ops h f) length
        | Mutation.alloc size => ops.alloc (writable ops h f) size
        | Mutation.setMedia data => ops.setData (writable ops h f) data
        | Mutation.appendMedia data => ops.appendData (writable ops h f) data
        | Mutation.resetData size => ops.fresh size
        | Mutation.reset => ops.fresh 0) ∧
    (Mutation.apply ops h f m).2 =
      (match m with
        | Mutation.resetData _ => { f with buffer := h.length, ownedBuffer := true }
        | Mutation.reset =>
          { f with buffer := h.length, ownedBuffer := true, rtpInfo := [], ts := 2 ^ 32 - 1 }
        | _ =>
          { f with buffer := if f.ownedBuffer then f.buffer else h.length, ownedBuffer := true }) ∧
    (Mutation.apply ops h f m).1.length =
      (match m with
        | Mutation.resetData _ => h.length + 1
        | Mutation.reset => h.length + 1
        | _ => if f.ownedBuffer then h.length else h.length + 1) ∧
    (f.ownedBuffer = false →
      writable ops h f = ops.copy (deref h f.buffer).data ∧
      (Mutation.apply ops h f m).2.buffer ≠ f.buffer) ∧
    (f.ownedBuffer = true → writable ops h f = deref h f.buffer) := by
  have key : (Mutation.apply ops h f m).2.ownedBuffer = true ∧
      (∀ p, p < h.length → (f.ownedBuffer = false ∨ p ≠ f.buffer) →
        (Mutation.apply ops h f m).1[p]? = h[p]?) ∧
      (f.ownedBuffer = false → (Mutation.apply ops h f m).2.buffer = h.length) := by
    have own : ∀ method, (onOwnBuffer ops h f method).2.ownedBuffer = true ∧
        (∀ p, p < h.length → (f.ownedBuffer = false ∨ p ≠ f.buffer) →
          (onOwnBuffer ops h f method).1[p]? = h[p]?) ∧
        (f.ownedBuffer = false → (onOwnBuffer ops h f method).2.buffer = h.length) := by
      intro method
      obtain ⟨b1, b2, _, _⟩ := onOwnBuffer_spec ops h f method hv
      refine ⟨b1, b2, ?_⟩
      intro ho
      exact ((AdquireBuffer_spec ops h f hv).2.2.2.1 ho).1
    have fresh : ∀ (g : MediaFrame) (size : Nat), g.buffer = f.buffer →
        (ResetData ops h g size).2.ownedBuffer = true ∧
        (∀ p, p < h.length → (ResetData ops h g size).1[p]? = h[p]?) ∧
        (ResetData ops h g size).2.buffer = h.length := by
      intro g size _
      refine ⟨rfl, ?_, rfl⟩
      intro p hp
      exact List.getElem?_append_left hp
    cases m with
    | getData write => exact own _
    | setLength length => exact own _
    | alloc size => exact own _
    | setMedia data => exact own _
    | appendMedia data => exact own _
    | resetData size =>
      obtain ⟨c1, c2, c3⟩ := fresh f size rfl
      exact ⟨c1, fun p hp _ => c2 p hp, fun _ => c3⟩
    | reset =>
      obtain ⟨c1, c2, c3⟩ := fresh { f with rtpInfo := [] } 0 rfl
      exact ⟨c1, fun p hp _ => c2 p hp, fun _ => c3⟩
  obtain ⟨k1, k2, k3⟩ := key
  have same : f.ownedBuffer = false → (Mutation.apply ops h f m).1[f.buffer]? = h[f.buffer]? :=
    fun ho => k2 f.buffer hv (Or.inl ho)
  obtain ⟨r1, r2, r3, r4⟩ := mutation_result ops h f m hv
  refine ⟨k1, same, ?_, k2, k3,
    fun method ho => (onOwnBuffer_spec ops h f method hv).2.2.1 ho, ?_, ?_, r1, r2, r3, r4,
    fun ho => ⟨by simp [writable, ho], by rw [k3 ho]; omega⟩,
    fun ho => by simp [writable, ho]⟩
  · intro ho
    have e : deref (Mutation.apply ops h f m).1 f.buffer = deref h f.buffer := by
      simp only [deref, List.getD_eq_getElem?_getD, same ho]
    exact ⟨e, by rw [e]⟩
  · intro type size
    exact ⟨rfl, by simp [MediaFrame.create]⟩
  · intro type
    exact ⟨rfl, rfl⟩

theorem copy_on_write_witness :
    (MediaFrame.wrap sharedHeap MediaType.Video 0).2.buffer < sharedHeap.length ∧
    (Mutation.apply listOps sharedHeap (MediaFrame.wrap sharedHeap MediaType.Video 0).2
      (Mutation.appendMedia [4, 5])).2.ownedBuffer = true ∧
    (Mutation.apply listOps sharedHeap (MediaFrame.wrap sharedHeap MediaType.Video 0).2
      (Mutation.appendMedia [4, 5])).1 =
      [Buffer.mk [1, 2, 3] 3, Buffer.mk [1, 2, 3, 4, 5] 5] ∧
    deref
      (Mutation.apply listOps sharedHeap (MediaFrame.wrap sharedHeap MediaType.Video 0).2
        (Mutation.appendMedia [4, 5])).1
      (Mutation.apply listOps sharedHeap (MediaFrame.wrap sharedHeap MediaType.Video 0).2
        (Mutation.appendMedia [4, 5])).2.buffer = Buffer.mk [1, 2, 3, 4, 5] 5 ∧
    (Mutation.apply listOps sharedHeap (MediaFrame.wrap sharedHeap MediaType.Video 0).2
      (Mutation.appendMedia [4, 5])).2.buffer = 1 :=
  have h := copy_on_write listOps sharedHeap (MediaFrame.wrap sharedHeap MediaType.Video 0).2
    (Mutation.appendMedia [4, 5]) (by decide)
  ⟨by decide, h.1, by decide, h.2.2.2.2.2.2.2.2.2.1.trans (by decide),
    h.2.2.2.2.1 (by decide)⟩

end Simulcast
